import Mathlib

/-!
Shallow embedding of the NuttX PCI core (`drivers/pci/pci.c`) in Lean 4,
with theorems settling the specification claims about:

* the width/alignment-checked configuration-space accessors
  (`PCI_BUS_READ_CONFIG` / `PCI_BUS_WRITE_CONFIG` macro instantiations),
* the capability-list walk (`pci_find_next_cap_ttl`, `pci_find_next_cap`),
* BAR sizing (`pci_size`),
* the device/driver matcher (`pci_match_one_device`),
* the registration loops (`pci_register_driver`, `pci_register_device`),
* BAR assignment (`pci_setup_device`) and the controller address windows,
* the bus scanner's multifunction gating (`pci_scan_bus`).

Machine integers are modelled as `Nat` with explicit truncation
(`% 2^8`, `% 2^16`, `% 2^32`) at the points where the C code narrows,
and C bitwise operators map to `Nat` bitwise operators (`&&&`, `|||`,
`^^^`, `>>>`).  The platform controller backend (`ctrl->ops`) is a
parameter: an arbitrary function supplying the results of `read`/`write`.
-/

set_option linter.unusedVariables false
set_option linter.unnecessarySeqFocus false

namespace PciCore

/-! ## Configuration space accessors

C source, `drivers/pci/pci.c` lines 43-75 and 1168-1173: the
`PCI_BUS_READ_CONFIG(len, type, size)` / `PCI_BUS_WRITE_CONFIG` macros
are instantiated for `byte` (size 1, never misaligned: `PCI_byte_BAD` is
`0`), `word` (size 2, bad when `where & 1`), `dword` (size 4, bad when
`where & 3`).  The backend `bus->ctrl->ops->read` writes a `uint32_t`
through a pointer and returns an `int`; we model it as a function
returning the pair.  `EINVAL` is 22, so `-EINVAL` is `-22`. -/

/-- Controller backend operations (`ctrl->ops`).  `read devfn wh size`
returns `(ret, data)`: the returned error code and whatever the backend
left in the `uint32_t` out-parameter (which the wrapper initialises to
`0`, so a backend that writes nothing is modelled by returning `0`).
`write devfn wh size value` returns the error code. -/
structure CfgOps where
  read : Nat → Nat → Nat → Int × Nat
  write : Nat → Nat → Nat → Nat → Int

/-- Result of one `pci_bus_read_config_*` call: the returned code, the
value stored through the out-parameter, and whether the backend was
invoked. -/
structure ReadResult where
  ret : Int
  value : Nat
  invoked : Bool
deriving DecidableEq

/-- `pci_bus_read_config_byte` (macro instance, size 1).
`PCI_byte_BAD` is the constant `0`, so the backend is always called.
The out-parameter receives `(uint8_t)data`.  The parameter `old` is the
previous content of the caller's out-parameter; the C code stores
unconditionally (`*value = (type)data;`), so `old` never flows into the
result. -/
def pci_bus_read_config_byte (bus : CfgOps) (devfn wh old : Nat) : ReadResult :=
  let r := bus.read devfn wh 1
  { ret := r.1, value := r.2 % 2^8, invoked := true }

/-- `pci_bus_read_config_word` (macro instance, size 2): bad when
`where & 1` is nonzero; then `ret` stays `-EINVAL`, `data` stays `0`,
and the unconditional store writes `(uint16_t)0`. -/
def pci_bus_read_config_word (bus : CfgOps) (devfn wh old : Nat) : ReadResult :=
  if wh &&& 1 ≠ 0 then { ret := -22, value := 0, invoked := false }
  else
    let r := bus.read devfn wh 2
    { ret := r.1, value := r.2 % 2^16, invoked := true }

/-- `pci_bus_read_config_dword` (macro instance, size 4): bad when
`where & 3` is nonzero. -/
def pci_bus_read_config_dword (bus : CfgOps) (devfn wh old : Nat) : ReadResult :=
  if wh &&& 3 ≠ 0 then { ret := -22, value := 0, invoked := false }
  else
    let r := bus.read devfn wh 4
    { ret := r.1, value := r.2 % 2^32, invoked := true }

/-- `pci_bus_write_config_byte` (macro instance, size 1): returns
`(ret, invoked)`. -/
def pci_bus_write_config_byte (bus : CfgOps) (devfn wh value : Nat) : Int × Bool :=
  (bus.write devfn wh 1 value, true)

/-- `pci_bus_write_config_word` (macro instance, size 2). -/
def pci_bus_write_config_word (bus : CfgOps) (devfn wh value : Nat) : Int × Bool :=
  if wh &&& 1 ≠ 0 then (-22, false) else (bus.write devfn wh 2 value, true)

/-- `pci_bus_write_config_dword` (macro instance, size 4). -/
def pci_bus_write_config_dword (bus : CfgOps) (devfn wh value : Nat) : Int × Bool :=
  if wh &&& 3 ≠ 0 then (-22, false) else (bus.write devfn wh 4 value, true)

/-! ## Capability walk

C source lines 191-249.  `pci_find_next_cap_ttl` first reads the byte at
`pos` into `pos` (`pos` is `uint8_t`), then loops `while ((*ttl)--)`:
break when `pos < 0x40`; `pos &= ~3`; read the 16-bit entry at `pos`;
`id = ent & 0xff`; break when `id == 0xff`; return `pos` when
`id == cap`; else `pos = ent >> 8`.  On exit it returns `0`.
`pci_find_next_cap` calls it with `ttl = 48`.

The model instruments the loop with the number of loop-body entries
(second component of the result), so that the TTL bound is a provable
statement.  The reads go through the accessor wrappers above (whose
returned codes the C code ignores), with a `0` previous out-parameter
content standing for the local variables `pos`/`ent`. -/

/-- Loop body of `pci_find_next_cap_ttl`, structurally recursive on the
remaining TTL.  Returns `(result, iterations)` where `iterations` counts
how many times the loop body was entered.  `pos` is a `uint8_t` (all
values fed in are `< 256`); `pos &&& 0xfc` is `pos &= ~3` on that
width. -/
def findNextCapLoop (bus : CfgOps) (devfn cap : Nat) : Nat → Nat → Nat × Nat
  | 0, _ => (0, 0)
  | ttl + 1, pos =>
    if pos < 0x40 then (0, 1)
    else
      let p := pos &&& 0xfc
      let ent := (pci_bus_read_config_word bus devfn p 0).value
      let id := ent &&& 0xff
      if id = 0xff then (0, 1)
      else if id = cap then (p, 1)
      else
        let r := findNextCapLoop bus devfn cap ttl (ent >>> 8)
        (r.1, r.2 + 1)

/-- `pci_find_next_cap_ttl` (C lines 191-225), instrumented with the
iteration count. -/
def pci_find_next_cap_ttl (bus : CfgOps) (devfn pos cap ttl : Nat) : Nat × Nat :=
  findNextCapLoop bus devfn cap ttl (pci_bus_read_config_byte bus devfn pos 0).value

/-- `pci_find_next_cap` (C lines 244-249): the walk with `ttl = 48`. -/
def pci_find_next_cap (bus : CfgOps) (devfn pos cap : Nat) : Nat × Nat :=
  pci_find_next_cap_ttl bus devfn pos cap 48

/-! ## BAR sizing: `pci_size`

C source lines 345-362, on `uint32_t`.  `~x` on a 32-bit value `x` is
`(2^32 - 1) - x` (bitwise complement; for `x < 2^32` the subtraction
borrows nowhere, so it is exactly the bit flip). -/

/-- 32-bit bitwise complement, for arguments `< 2^32`. -/
def compl32 (x : Nat) : Nat := (2^32 - 1) - x

/-- `pci_size base maxbase mask` (C lines 345-362):
`size = maxbase & mask`; `0` when that is `0`; else
`size = (size & ~(size - 1)) - 1` (bits strictly below the lowest set
bit); `0` when `base == maxbase && ((base | size) & mask) != mask`;
else `size + 1`. -/
def pci_size (base maxbase mask : Nat) : Nat :=
  let size := maxbase &&& mask
  if size = 0 then 0
  else
    let size := (size &&& compl32 (size - 1)) - 1
    if base = maxbase ∧ ((base ||| size) &&& mask) ≠ mask then 0
    else size + 1

/-- The sizing computation as the specification words it ("canonical
sizing", spec 4.3): `size = (m & -m) - 1` for `m = maxbase & mask`, with
`-m` the 32-bit two's-complement negation `2^32 - m`.  Spec-side
definition, to be compared with `pci_size`. -/
def pci_size_spec (base maxbase mask : Nat) : Nat :=
  let m := maxbase &&& mask
  if m = 0 then 0
  else
    let sz := (m &&& (2^32 - m)) - 1
    if base = maxbase ∧ ((base ||| sz) &&& mask) ≠ mask then 0
    else sz + 1

/-! ## The device/driver matcher

C source lines 77-84.  The last line of the macro is

  `(((id)->class ^ (dev)->class) & ((id)->class_mask == 0))`

 — note the parenthesis placement: `(id)->class_mask == 0` is a C
boolean (`1` when the mask is zero, `0` otherwise) that gets ANDed with
the XOR, and the whole expression is then used as a truth value
(nonzero = match).  `PCI_ANY_ID` is the wildcard sentinel for the id
fields (the 16-bit all-ones value; `pci_ids.h` is not part of the
sources, its value does not matter for any claim below). -/

/-- Wildcard id-field sentinel.  Modelled from the spec: "any field equal
to the wildcard sentinel matches any value" (`PCI_ANY_ID`). -/
def PCI_ANY_ID : Nat := 0xffff

/-- One entry of a driver's id table (`struct pci_device_id_s`). -/
structure DeviceId where
  vendor : Nat
  device : Nat
  subvendor : Nat
  subdevice : Nat
  class_ : Nat
  class_mask : Nat
deriving DecidableEq

/-- The fields of `struct pci_device_s` that the matcher and the
registration loops consult.  `class_` renames the C field `class`
(a Lean keyword). -/
structure PciDev where
  vendor : Nat
  device : Nat
  subsystem_vendor : Nat
  subsystem_device : Nat
  class_ : Nat
deriving DecidableEq

/-- `pci_match_one_device` exactly as the C macro evaluates (lines
77-84), including the misplaced parenthesis in the class test: the last
conjunct is the C truth value of
`((id->class ^ dev->class) & (id->class_mask == 0))`. -/
def pci_match_one_device (id : DeviceId) (dev : PciDev) : Bool :=
  (id.vendor == PCI_ANY_ID || id.vendor == dev.vendor) &&
  (id.device == PCI_ANY_ID || id.device == dev.device) &&
  (id.subvendor == PCI_ANY_ID || id.subvendor == dev.subsystem_vendor) &&
  (id.subdevice == PCI_ANY_ID || id.subdevice == dev.subsystem_device) &&
  (((id.class_ ^^^ dev.class_) &&& (if id.class_mask == 0 then 1 else 0)) != 0)

/-- The matcher as the specification words it ("Matcher correctness"):
each id field is `ANY` or equal, and
`(id.class ^ dev.class) & id.class_mask == 0`.  This is the spec-side
definition used to compare against `pci_match_one_device`. -/
def pci_match_one_device_spec (id : DeviceId) (dev : PciDev) : Bool :=
  (id.vendor == PCI_ANY_ID || id.vendor == dev.vendor) &&
  (id.device == PCI_ANY_ID || id.device == dev.device) &&
  (id.subvendor == PCI_ANY_ID || id.subvendor == dev.subsystem_vendor) &&
  (id.subdevice == PCI_ANY_ID || id.subdevice == dev.subsystem_device) &&
  (((id.class_ ^^^ dev.class_) &&& id.class_mask) == 0)

/-! ## Registry: `pci_register_driver` / `pci_register_device`

C source lines 966-1094.  A driver carries a sentinel-terminated id
table and a probe callback (`probe(dev) >= 0` means success; we model
the success predicate).  The global registry state is the driver list
and the device list; a device's `drv` back-pointer is modelled as the
index of the bound driver in the driver list (list positions are stable:
drivers are only appended by the operations modelled here).

`pci_register_driver` (lines 984-1001) walks the device list, skips
devices with `dev->drv != NULL`, and for each other device walks the id
table until the sentinel (`id->vendor == 0`); on a match it probes and,
on success, stores the binding — and then *continues* with the next
table entry (there is no `break`).

`pci_register_device` (lines 1077-1090) appends the device, then for
*every* driver in list order walks the id table until the sentinel; on a
match it probes and, on success, stores the binding and `break`s — out
of the id-table loop only, so later drivers are still tried and can
overwrite the binding.

Both loops are instrumented with the number of probe invocations for
the scanned table. -/

/-- A PCI driver: its id table and the success predicate of its `probe`
callback (`probe` in C takes the device only). -/
structure PciDriver where
  id_table : List DeviceId
  probe : PciDev → Bool

/-- Inner loop of `pci_register_driver` for one device (C lines
991-1000): walk the table until the sentinel; on match, probe (counted)
and record success; never break.  `bound` is whether some probe has
succeeded so far; the result is `(bound, probeCount)`. -/
def driver_match_loop (probe : PciDev → Bool) (dev : PciDev) :
    List DeviceId → Bool → Nat → Bool × Nat
  | [], bound, cnt => (bound, cnt)
  | id :: rest, bound, cnt =>
    if id.vendor = 0 then (bound, cnt)
    else if pci_match_one_device id dev then
      driver_match_loop probe dev rest (probe dev || bound) (cnt + 1)
    else
      driver_match_loop probe dev rest bound cnt

/-- The id-table scan `pci_register_driver` performs against one
unbound device. -/
def register_driver_scan (drv : PciDriver) (dev : PciDev) : Bool × Nat :=
  driver_match_loop drv.probe dev drv.id_table false 0

/-- Inner loop of `pci_register_device` for one driver (C lines
1079-1089): walk the table until the sentinel; on match, probe
(counted); on success bind and `break`. -/
def device_match_loop (probe : PciDev → Bool) (dev : PciDev) :
    List DeviceId → Nat → Bool × Nat
  | [], cnt => (false, cnt)
  | id :: rest, cnt =>
    if id.vendor = 0 then (false, cnt)
    else if pci_match_one_device id dev then
      if probe dev then (true, cnt + 1)
      else device_match_loop probe dev rest (cnt + 1)
    else
      device_match_loop probe dev rest cnt

/-- The id-table scan `pci_register_device` performs for one driver. -/
def register_device_scan (drv : PciDriver) (dev : PciDev) : Bool × Nat :=
  device_match_loop drv.probe dev drv.id_table 0

/-- Global registry state: `g_pci_driver_list` and `g_pci_device_list`
(each device paired with its `drv` back-pointer, as an index into the
driver list). -/
structure RegState where
  drivers : List PciDriver
  devices : List (PciDev × Option Nat)

/-- Empty registry. -/
def RegState.empty : RegState := { drivers := [], devices := [] }

/-- `pci_register_driver drv` (C lines 966-1005): append `drv` to the
driver list, then for every device with no bound driver run the
id-table scan; on success the device binds to `drv` (whose index is the
old list length, as `list_add_tail` appends). -/
def pci_register_driver (st : RegState) (drv : PciDriver) : RegState :=
  let n := st.drivers.length
  { drivers := st.drivers ++ [drv]
    devices := st.devices.map fun p =>
      match p.2 with
      | some i => (p.1, some i)
      | none => (p.1, if (register_driver_scan drv p.1).1 then some n else none) }

/-- The driver-list fold of `pci_register_device` (C lines 1077-1090):
every driver is scanned in list order (the `break` leaves only the
id-table loop), so a later successful scan overwrites the binding. -/
def bind_device_loop (dev : PciDev) : Nat → Option Nat → List PciDriver → Option Nat
  | _, acc, [] => acc
  | i, acc, drv :: rest =>
    bind_device_loop dev (i + 1)
      (if (register_device_scan drv dev).1 then some i else acc) rest

/-- `pci_register_device dev` (C lines 1063-1094): append the device to
the device list with the binding produced by scanning all drivers. -/
def pci_register_device (st : RegState) (dev : PciDev) : RegState :=
  { drivers := st.drivers
    devices := st.devices ++ [(dev, bind_device_loop dev 0 none st.drivers)] }

/-- Final binding map of a registry state: for each device in
registration order, the index of its bound driver (or `none`). -/
def bindings (st : RegState) : List (Option Nat) := st.devices.map (·.2)

/-- Register all drivers first, then all devices. -/
def driversThenDevices (drvs : List PciDriver) (devs : List PciDev) : RegState :=
  devs.foldl pci_register_device (drvs.foldl pci_register_driver RegState.empty)

/-- Register all devices first, then all drivers. -/
def devicesThenDrivers (drvs : List PciDriver) (devs : List PciDev) : RegState :=
  drvs.foldl pci_register_driver (devs.foldl pci_register_device RegState.empty)

/-- A driver whose probe always succeeds, as claim C2 assumes
("deterministic probe callbacks that always succeed on a match"). -/
def mkDriver (tbl : List DeviceId) : PciDriver :=
  { id_table := tbl, probe := fun _ => true }

/-- Truncation of an id table at the sentinel (`vendor == 0`): the
entries the C loops can ever look at. -/
def sentinelTrunc (tbl : List DeviceId) : List DeviceId :=
  tbl.takeWhile fun id => id.vendor ≠ 0

/-- Whether some entry of the sentinel-truncated table matches the
device. -/
def someEntryMatches (tbl : List DeviceId) (dev : PciDev) : Bool :=
  (sentinelTrunc tbl).any fun id => pci_match_one_device id dev

/-! ## BAR assignment: `pci_setup_device` (assign-all-buses mode)

C source lines 377-496, the `CONFIG_PCI_ASSIGN_ALL_BUSES` variant, plus
the window-start alignments performed by `pci_presetup_bridge` /
`pci_postsetup_bridge` (lines 526-570, 598-624).

Per BAR the code reads the original value, writes `0xfffffffe`, reads
back the probe `mask` and restores; we model the two values a backend
produces for a BAR as a `BarProbe`.  A BAR classified 64-bit consumes
the following BAR slot (the loop's extra `bar++`), which is modelled by
dropping the next probe.  Observable effects are instrumented: the BAR
programming writes, the populated `dev->resource[bar]` entries, and
whether the trailing `list_add_tail(&dev->bus->devices, &dev->bus_list)`
was reached (`added`; `pci_register_bus_devices` later publishes exactly
the devices on the bus lists, C lines 309-327). -/

/-- A `struct pci_resource_s`: `{start, end, flags}` (the C field `end`
is a Lean keyword, renamed `end_`). -/
structure PciResource where
  start : Nat
  end_ : Nat
  flags : Nat
deriving DecidableEq

/-- The controller's three address windows `ctrl->io`, `ctrl->mem`,
`ctrl->mem_pref` (fields renamed to satisfy identifier constraints). -/
structure CtrlWins where
  ioWin : PciResource
  memWin : PciResource
  prefWin : PciResource
deriving DecidableEq

/-- Which window a BAR allocates from. -/
inductive WinSel where
  | ioSpace
  | memSpace
  | prefSpace
deriving DecidableEq

/-- Select a window. -/
def getWin (w : CtrlWins) : WinSel → PciResource
  | .ioSpace => w.ioWin
  | .memSpace => w.memWin
  | .prefSpace => w.prefWin

/-- Replace a window. -/
def setWin (w : CtrlWins) : WinSel → PciResource → CtrlWins
  | .ioSpace, r => { w with ioWin := r }
  | .memSpace, r => { w with memWin := r }
  | .prefSpace, r => { w with prefWin := r }

/-- Modelled from the spec: the `pci_resource_size` helper lives in the
`nuttx/pci/pci.h` header, which is not among the sources; the spec uses
it only as the "window is nonempty" test (sections 4.3 and 4.4), which
this definition provides (zero-initialised windows give `0`). -/
def pci_resource_size (r : PciResource) : Nat := r.end_ - r.start

/-- The `ALIGN(x, m)` macro (C line 36): round `x` up to a multiple of
`m`.  The C form `((x) + ((m) - 1)) & ~((uintptr_t)(m) - 1)` equals this
arithmetic form for the power-of-two alignments the driver uses; the
lemma `ALIGN_models_land` below proves the correspondence against the
bit-level form. -/
def ALIGN (x m : Nat) : Nat := ((x + m - 1) / m) * m

/-- The two values the sizing probe of one BAR yields: the saved
original value and the read-back of the all-ones write (C lines
399-401). -/
structure BarProbe where
  orig : Nat
  mask : Nat
deriving DecidableEq

/-- Classification of a sizable BAR (C lines 410-434): I/O when bit 0 is
set (`PCI_BASE_ADDRESS_SPACE_IO = 0x1`), else prefetchable MEM when bit
3 (`PCI_BASE_ADDRESS_MEM_PREFETCH = 0x8`) is set and the prefetch window
is nonempty, else plain MEM.  Returns `(size, flags, window)`; the
resource flag bits are `1 = IO`, `2 = MEM`, `4 = PREFETCH`, `8 = MEM_64`
(`PCI_RESOURCE_*`; the numeric values live in the header outside the
sources and no claim depends on them). -/
def classifyBar (wins : CtrlWins) (p : BarProbe) : Nat × Nat × WinSel :=
  if p.mask &&& 1 ≠ 0 then
    (pci_size p.orig p.mask 0xfffffff0, 1, .ioSpace)
  else if p.mask &&& 8 ≠ 0 ∧ pci_resource_size wins.prefWin ≠ 0 then
    (pci_size p.orig p.mask 0xfffffffe, 2 ||| 4, .prefSpace)
  else
    (pci_size p.orig p.mask 0xfffffffe, 2, .memSpace)

/-- Result of `pci_setup_device`: final windows, populated
`dev->resource` entries (with their BAR index), BAR config writes
`(offset, value)`, and whether the device reached the final
`list_add_tail` onto its bus's device list. -/
structure SetupResult where
  wins : CtrlWins
  resources : List (Nat × PciResource)
  writes : List (Nat × Nat)
  added : Bool
deriving DecidableEq

/-- The BAR loop of `pci_setup_device` (C lines 388-496, assign-all
branch).  `bar` is the loop index; the probe list stands for the reads
at `PCI_BASE_ADDRESS_0 + bar * 4`; `0x10 + bar * 4` and `0x14 + bar * 4`
are `base_address_0` / `base_address_1`.  The `skip` flag models the
extra `bar++` a 64-bit BAR performs: the next probe (the high half of
the 64-bit BAR) is consumed without being looked at.  A mask of `0` or
all-ones skips the BAR; a zero computed size skips the BAR; a BAR that
does not fit its window (`ALIGN(res->start, size) + size > res->end`)
makes the whole function return — with `added := false`, since the
early `return` skips the trailing `list_add_tail`.  Otherwise the window
start is aligned up, the BAR (and for 64-bit BARs the upper half) is
programmed, the resource entry is recorded and the window start advances
by `size`. -/
def setupBars : List BarProbe → Bool → CtrlWins → Nat → SetupResult
  | [], _, wins, _ => { wins := wins, resources := [], writes := [], added := true }
  | _ :: rest, true, wins, bar => setupBars rest false wins bar
  | p :: rest, false, wins, bar =>
    if p.mask = 0 ∨ p.mask = 0xffffffff then
      setupBars rest false wins (bar + 1)
    else
      let c := classifyBar wins p
      let size := c.1
      let flags := c.2.1
      let sel := c.2.2
      if size = 0 then
        setupBars rest false wins (bar + 1)
      else
        let res := getWin wins sel
        if ALIGN res.start size + size > res.end_ then
          { wins := wins, resources := [], writes := [], added := false }
        else
          let a := ALIGN res.start size
          let is64 := p.mask &&& 4 ≠ 0
          let wins' := setWin wins sel { res with start := a + size }
          let entry : Nat × PciResource :=
            (bar, { start := a, end_ := a + size - 1,
                    flags := flags ||| (if is64 then 8 else 0) })
          let r :=
            if p.mask &&& 4 ≠ 0 then setupBars rest true wins' (bar + 2)
            else setupBars rest false wins' (bar + 1)
          { wins := r.wins
            resources := entry :: r.resources
            writes := (0x10 + bar * 4, a) ::
              ((if is64 then [(0x14 + bar * 4, a >>> 32)] else []) ++ r.writes)
            added := r.added }

/-- `pci_setup_device dev max_bar` in assign-all-buses mode: run the BAR
loop from index 0 over the device's probes (`max_bar` probes). -/
def pci_setup_device (wins : CtrlWins) (probes : List BarProbe) : SetupResult :=
  setupBars probes false wins 0

/-- The window-start alignments a bridge performs on the controller in
assign-all-buses mode: `pci_presetup_bridge` and `pci_postsetup_bridge`
both align the in-use windows' starts (mem and pref-mem to 1 MiB, I/O to
4 KiB; C lines 530, 545, 564 and 600, 608, 618). -/
def bridge_align_windows (w : CtrlWins) : CtrlWins :=
  { ioWin := if pci_resource_size w.ioWin ≠ 0 then
      { w.ioWin with start := ALIGN w.ioWin.start (1024 * 4) } else w.ioWin
    memWin := if pci_resource_size w.memWin ≠ 0 then
      { w.memWin with start := ALIGN w.memWin.start (1024 * 1024) } else w.memWin
    prefWin := if pci_resource_size w.prefWin ≠ 0 then
      { w.prefWin with start := ALIGN w.prefWin.start (1024 * 1024) } else w.prefWin }

/-- One controller-window-relevant event of a bus scan: a device's BAR
setup (`pci_setup_device`), or a bridge's window alignment.  Any
topology scanned by `pci_scan_bus` induces such a sequence of events on
the controller's windows (devices and bridges in discovery order). -/
inductive ScanStep where
  | setup (probes : List BarProbe)
  | bridge

/-- Run a scan event sequence over the controller windows, collecting
every populated resource. -/
def runScan (wins : CtrlWins) : List ScanStep → CtrlWins × List PciResource
  | [] => (wins, [])
  | .setup probes :: rest =>
    let r := pci_setup_device wins probes
    let t := runScan r.wins rest
    (t.1, r.resources.map (·.2) ++ t.2)
  | .bridge :: rest => runScan (bridge_align_windows wins) rest

/-- Which window a populated resource was assigned from, recovered from
its flags (IO bit set → io window; else PREFETCH bit set → prefetch
window; else mem window) — this matches `classifyBar` exactly. -/
def isFromWindow : WinSel → PciResource → Bool
  | .ioSpace, r => r.flags &&& 1 != 0
  | .prefSpace, r => r.flags &&& 1 == 0 && r.flags &&& 4 != 0
  | .memSpace, r => r.flags &&& 1 == 0 && r.flags &&& 4 == 0

/-- `Stacked lo l hi`: the ranges in `l` lie in order between `lo` and
`hi`: each starts no earlier than the previous one ends, starting from
`lo`, and `hi` bounds the position after the last range. -/
def Stacked (lo : Nat) : List PciResource → Nat → Prop
  | [], hi => lo ≤ hi
  | r :: rs, hi => lo ≤ r.start ∧ r.start ≤ r.end_ ∧ Stacked (r.end_ + 1) rs hi

/-! ## Scanner multifunction gating: `pci_scan_bus`

C source lines 640-749, restricted to the observations claim C6 is
about: which functions of one bus get recorded (reach the
`pci_setup_device` call of their header branch) and how the `is_multi`
gate evolves.  The backend is abstracted as the outcome of the three
config reads the loop issues per `devfn`: the header-type byte read
(which can fail: `none`), the vendor/device dword read (which can fail),
and the class/revision dword read (whose return code the C ignores).
BAR allocation inside `pci_setup_device` does not affect the gating, so
recording is modelled at the dispatch point. -/

/-- Scan backend: results of the per-`devfn` config reads. -/
structure ScanCfg where
  hdrRead : Nat → Option Nat
  vendorRead : Nat → Option Nat
  classRead : Nat → Nat

/-- One iteration of the `pci_scan_bus` device loop (C lines 652-748)
at `devfn`, acting on the `is_multi` gate `m` and returning the devfns
recorded by this iteration.  `PCI_FUNC(devfn)` is `devfn & 0x7`;
`PCI_HEADER_TYPE_NORMAL = 0`, `PCI_HEADER_TYPE_BRIDGE = 1`,
`PCI_CLASS_BRIDGE_PCI = 0x0604` (compared against the class register
shifted right twice by 8). -/
def scanStep (cfg : ScanCfg) (m devfn : Nat) : Nat × List Nat :=
  if devfn &&& 7 ≠ 0 ∧ m = 0 then (m, [])
  else
    match cfg.hdrRead devfn with
    | none => (m, [])
    | some h =>
      let hdr_type := h % 2^8
      let m' := if devfn &&& 7 = 0 then hdr_type &&& 0x80 else m
      match cfg.vendorRead devfn with
      | none => (m', [])
      | some l0 =>
        let l := l0 % 2^32
        if l = 0xffffffff ∨ l = 0x00000000 ∨ l = 0x0000ffff ∨ l = 0xffff0000 then
          (m', [])
        else
          let class0 := cfg.classRead devfn % 2^32
          let classHi := (class0 >>> 8) >>> 8
          if hdr_type &&& 0x7f = 0 then
            if classHi = 0x0604 then (m', []) else (m', [devfn])
          else if hdr_type &&& 0x7f = 1 then (m', [devfn])
          else (m', [])

/-- The scan loop from `devfn` for `fuel` further slots. -/
def scanFrom (cfg : ScanCfg) : Nat → Nat → Nat → List Nat
  | _, _, 0 => []
  | m, devfn, fuel + 1 =>
    let s := scanStep cfg m devfn
    s.2 ++ scanFrom cfg s.1 (devfn + 1) fuel

/-- `pci_scan_bus` for one bus: `for (devfn = 0; devfn < 0xff; ++devfn)`
with `is_multi` initially `0`; returns the recorded devfns in discovery
order. -/
def pci_scan_bus (cfg : ScanCfg) : List Nat :=
  scanFrom cfg 0 0 0xff

/-- The `is_multi` gate value after running the scan loop for `fuel`
slots starting at `devfn` (parallel state recursion used to decompose
`scanFrom` over split fuel). -/
def scanMState (cfg : ScanCfg) : Nat → Nat → Nat → Nat
  | m, _, 0 => m
  | m, devfn, fuel + 1 => scanMState cfg (scanStep cfg m devfn).1 (devfn + 1) fuel

/-- Whether function 0 of the slot containing `devfn` advertised the
multifunction bit: its header-type read succeeded and bit `0x80` of the
(8-bit) value is set. -/
def fn0Advertises (cfg : ScanCfg) (devfn : Nat) : Prop :=
  ∃ h, cfg.hdrRead (devfn / 8 * 8) = some h ∧ h % 2^8 &&& 0x80 ≠ 0

/-- How many of the drivers match a device (through the sentinel-bounded
table scan). -/
def countHits (drvs : List PciDriver) (dev : PciDev) : Nat :=
  (drvs.filter fun drv => someEntryMatches drv.id_table dev).length

/-- Index of the first driver (numbering from `i`) whose
`register_driver`-style scan of the device succeeds. -/
def firstHitFrom (dev : PciDev) : Nat → List PciDriver → Option Nat
  | _, [] => none
  | i, drv :: rest =>
    if (register_driver_scan drv dev).1 then some i
    else firstHitFrom dev (i + 1) rest

/-! ## Bitwise arithmetic helper lemmas -/

theorem land_three (x : Nat) : x &&& 3 = x % 4 := by
  have h := Nat.and_pow_two_sub_one_eq_mod x 2
  norm_num at h
  exact h

theorem land_seven (x : Nat) : x &&& 7 = x % 8 := by
  have h := Nat.and_pow_two_sub_one_eq_mod x 3
  norm_num at h
  exact h

theorem land_dd (a b : Nat) : (2*a) &&& (2*b) = 2*(a &&& b) := by
  apply Nat.eq_of_testBit_eq
  intro i
  cases i with
  | zero => simp [Nat.testBit_zero, Nat.mul_mod_right]
  | succ j =>
    rw [Nat.testBit_and, Nat.testBit_succ, Nat.testBit_succ, Nat.testBit_succ,
      Nat.mul_div_cancel_left _ (by norm_num : 0 < 2),
      Nat.mul_div_cancel_left _ (by norm_num : 0 < 2),
      Nat.mul_div_cancel_left _ (by norm_num : 0 < 2), Nat.testBit_and]

theorem land_do (a b : Nat) : (2*a) &&& (2*b+1) = 2*(a &&& b) := by
  apply Nat.eq_of_testBit_eq
  intro i
  cases i with
  | zero => rw [Nat.testBit_and]; simp [Nat.testBit_zero, Nat.mul_mod_right, Nat.mul_add_mod]
  | succ j =>
    have h1 : (2*a)/2 = a := by omega
    have h2 : (2*b+1)/2 = b := by omega
    have h3 : (2*(a &&& b))/2 = a &&& b := by omega
    rw [Nat.testBit_and, Nat.testBit_succ, Nat.testBit_succ, Nat.testBit_succ, h1, h2, h3,
      Nat.testBit_and]

theorem land_od (a b : Nat) : (2*a+1) &&& (2*b) = 2*(a &&& b) := by
  rw [Nat.land_comm, land_do, Nat.land_comm]

theorem land_oo (a b : Nat) : (2*a+1) &&& (2*b+1) = 2*(a &&& b)+1 := by
  apply Nat.eq_of_testBit_eq
  intro i
  cases i with
  | zero => rw [Nat.testBit_and]; simp [Nat.testBit_zero, Nat.mul_add_mod]
  | succ j =>
    have h1 : (2*a+1)/2 = a := by omega
    have h2 : (2*b+1)/2 = b := by omega
    have h3 : (2*(a &&& b)+1)/2 = a &&& b := by omega
    rw [Nat.testBit_and, Nat.testBit_succ, Nat.testBit_succ, Nat.testBit_succ, h1, h2, h3,
      Nat.testBit_and]

/-- Numbers summing to an all-ones value have no common bits. -/
theorem sum_ones_land : ∀ n c d : Nat, c + d = 2^n - 1 → c &&& d = 0 := by
  intro n
  induction n with
  | zero => intro c d h; simp at h; obtain ⟨hc, hd⟩ := h; simp [hc, hd]
  | succ k ih =>
    intro c d h
    have hpow : (0:Nat) < 2^k := Nat.pos_pow_of_pos k (by norm_num)
    have h2 : (2:Nat)^(k+1) = 2*2^k := by ring
    have hcd : c % 2 + d % 2 = 1 := by omega
    have hsum : c / 2 + d / 2 = 2^k - 1 := by omega
    have hland := ih (c/2) (d/2) hsum
    rcases Nat.eq_zero_or_pos (c % 2) with h0 | h1
    · have hc' : c = 2*(c/2) := by omega
      have hd' : d = 2*(d/2)+1 := by omega
      rw [hc', hd', land_do, hland]
    · have hc' : c = 2*(c/2)+1 := by omega
      have hd' : d = 2*(d/2) := by omega
      rw [hc', hd', land_od, hland]

/-- Two's-complement lowest-set-bit extraction: for `0 < m < 2^w`,
`m & -m` (with `-m` the `w`-bit negation `2^w - m`) is a power of
two. -/
theorem lowbit_pow2 : ∀ w m : Nat, 0 < m → m < 2^w → ∃ k, m &&& (2^w - m) = 2^k := by
  intro w
  induction w with
  | zero => intro m h1 h2; omega
  | succ v ih =>
    intro m h1 h2
    have h2v : (2:Nat)^(v+1) = 2*2^v := by ring
    rcases Nat.eq_zero_or_pos (m % 2) with h0 | hodd
    · obtain ⟨q, rfl⟩ : ∃ q, m = 2*q := ⟨m/2, by omega⟩
      have hpos : 0 < q := by omega
      have hlt : q < 2^v := by omega
      obtain ⟨k, hk⟩ := ih q hpos hlt
      refine ⟨k+1, ?_⟩
      rw [show 2^(v+1) - 2*q = 2*(2^v - q) from by omega, land_dd, hk]
      ring
    · obtain ⟨q, rfl⟩ : ∃ q, m = 2*q+1 := ⟨m/2, by omega⟩
      refine ⟨0, ?_⟩
      rw [show 2^(v+1) - (2*q+1) = 2*(2^v - 1 - q)+1 from by omega, land_oo,
        sum_ones_land v q (2^v - 1 - q) (by omega)]
      norm_num

/-! ## Claim C1: the matcher -/

/-- With a nonzero `class_mask` the C matcher rejects every device: the
last factor of the macro is `(id->class ^ dev->class) & (id->class_mask == 0)`,
and `(id->class_mask == 0)` evaluates to `0`. -/
theorem matcher_nonzero_mask_rejects (id : DeviceId) (dev : PciDev)
    (h : id.class_mask ≠ 0) : pci_match_one_device id dev = false := by
  simp [pci_match_one_device, h]

/-- With a zero `class_mask` the C matcher's class factor is
`(id->class ^ dev->class) & 1`: it requires the two class values to
differ in their lowest bit. -/
theorem matcher_zero_mask_needs_odd_xor (id : DeviceId) (dev : PciDev)
    (h : id.class_mask = 0) :
    pci_match_one_device id dev =
      ((id.vendor == PCI_ANY_ID || id.vendor == dev.vendor) &&
       (id.device == PCI_ANY_ID || id.device == dev.device) &&
       (id.subvendor == PCI_ANY_ID || id.subvendor == dev.subsystem_vendor) &&
       (id.subdevice == PCI_ANY_ID || id.subdevice == dev.subsystem_device) &&
       ((id.class_ ^^^ dev.class_) % 2 == 1)) := by
  simp only [pci_match_one_device, h]
  norm_num [Nat.and_one_is_mod]

/-- Claim C1 (code_bug): at the failing input — an id pattern that
wildcards all four id fields and constrains the class through
`class_mask = 0xffffff` with `class = 0x020000`, against a device of
exactly that class — the claimed predicate (each field `ANY` or equal,
and `(id.class ^ dev.class) & id.class_mask == 0`, the form the spec
states and the design notes call the intended one) is `true`, but the
code's `pci_match_one_device` evaluates to `false`, because its
misparenthesised last factor `(id->class ^ dev->class) & (id->class_mask == 0)`
is `0` whenever `class_mask ≠ 0`. -/
theorem C1_matcher_class_mask_code_bug :
    pci_match_one_device
        ⟨0xffff, 0xffff, 0xffff, 0xffff, 0x020000, 0xffffff⟩
        ⟨0x8086, 0x100e, 0x1028, 0x04a6, 0x020000⟩ = false ∧
    pci_match_one_device_spec
        ⟨0xffff, 0xffff, 0xffff, 0xffff, 0x020000, 0xffffff⟩
        ⟨0x8086, 0x100e, 0x1028, 0x04a6, 0x020000⟩ = true := by
  exact ⟨by decide, by decide⟩

/-! ## Claim C7: config access width/alignment contract -/

/-- Claim C7: for each width `w ∈ {1, 2, 4}`, a configuration read or
write at offset `wh` fails with `-EINVAL` without invoking the backend
when `wh % w ≠ 0`, and otherwise forwards to the backend and returns the
backend's result; byte accesses never fail the alignment check. -/
theorem C7_config_access_alignment (bus : CfgOps) (devfn wh old value : Nat) :
    ((pci_bus_read_config_byte bus devfn wh old).invoked = true ∧
     (pci_bus_read_config_byte bus devfn wh old).ret = (bus.read devfn wh 1).1 ∧
     pci_bus_write_config_byte bus devfn wh value = (bus.write devfn wh 1 value, true)) ∧
    (wh % 2 ≠ 0 →
      (pci_bus_read_config_word bus devfn wh old).ret = -22 ∧
      (pci_bus_read_config_word bus devfn wh old).invoked = false ∧
      pci_bus_write_config_word bus devfn wh value = (-22, false)) ∧
    (wh % 2 = 0 →
      (pci_bus_read_config_word bus devfn wh old).invoked = true ∧
      (pci_bus_read_config_word bus devfn wh old).ret = (bus.read devfn wh 2).1 ∧
      pci_bus_write_config_word bus devfn wh value = (bus.write devfn wh 2 value, true)) ∧
    (wh % 4 ≠ 0 →
      (pci_bus_read_config_dword bus devfn wh old).ret = -22 ∧
      (pci_bus_read_config_dword bus devfn wh old).invoked = false ∧
      pci_bus_write_config_dword bus devfn wh value = (-22, false)) ∧
    (wh % 4 = 0 →
      (pci_bus_read_config_dword bus devfn wh old).invoked = true ∧
      (pci_bus_read_config_dword bus devfn wh old).ret = (bus.read devfn wh 4).1 ∧
      pci_bus_write_config_dword bus devfn wh value = (bus.write devfn wh 4 value, true)) := by
  have h1 : wh &&& 1 = wh % 2 := Nat.and_one_is_mod wh
  have h3 : wh &&& 3 = wh % 4 := land_three wh
  unfold pci_bus_read_config_byte pci_bus_read_config_word pci_bus_read_config_dword
    pci_bus_write_config_byte pci_bus_write_config_word pci_bus_write_config_dword
  simp only [h1, h3]
  repeat' apply And.intro
  all_goals first
    | trivial
    | (intro h; simp [h])

/-- Claim C7 witness: the contract evaluated at a misaligned word read
(`wh = 1`) and an aligned word read (`wh = 2`) against a concrete
backend. -/
theorem C7_config_access_alignment_witness :
    (pci_bus_read_config_word ⟨fun _ _ _ => (0, 0xabcd), fun _ _ _ _ => 0⟩ 8 1 7).ret = -22 ∧
    (pci_bus_read_config_word ⟨fun _ _ _ => (0, 0xabcd), fun _ _ _ _ => 0⟩ 8 1 7).invoked = false ∧
    (pci_bus_read_config_word ⟨fun _ _ _ => (0, 0xabcd), fun _ _ _ _ => 0⟩ 8 2 7).invoked = true ∧
    (pci_bus_read_config_word ⟨fun _ _ _ => (0, 0xabcd), fun _ _ _ _ => 0⟩ 8 2 7).ret = 0 := by
  have hm := C7_config_access_alignment ⟨fun _ _ _ => (0, 0xabcd), fun _ _ _ _ => 0⟩ 8 1 7 0
  have ha := C7_config_access_alignment ⟨fun _ _ _ => (0, 0xabcd), fun _ _ _ _ => 0⟩ 8 2 7 0
  have hm2 := hm.2.1 (by decide)
  have ha2 := ha.2.2.1 (by decide)
  exact ⟨hm2.1, hm2.2.1, ha2.1, ha2.2.1⟩

/-! ## Claim C10: the out-parameter is always overwritten -/

/-- Claim C10: misaligned word/dword reads return `-EINVAL` and
overwrite the caller's value with `0` (the wrapper initialises
`data = 0` and stores unconditionally); on every path — alignment
failure or backend error alike — the out-parameter is freshly written
and never depends on its previous contents `old`. -/
theorem C10_out_param_always_written (bus : CfgOps) (devfn wh old old' : Nat) :
    (wh % 2 ≠ 0 →
      pci_bus_read_config_word bus devfn wh old = ⟨-22, 0, false⟩) ∧
    (wh % 4 ≠ 0 →
      pci_bus_read_config_dword bus devfn wh old = ⟨-22, 0, false⟩) ∧
    pci_bus_read_config_word bus devfn wh old = pci_bus_read_config_word bus devfn wh old' ∧
    pci_bus_read_config_dword bus devfn wh old = pci_bus_read_config_dword bus devfn wh old' ∧
    (wh % 2 = 0 →
      (pci_bus_read_config_word bus devfn wh old).value = (bus.read devfn wh 2).2 % 2^16) ∧
    (wh % 4 = 0 →
      (pci_bus_read_config_dword bus devfn wh old).value = (bus.read devfn wh 4).2 % 2^32) := by
  have h1 : wh &&& 1 = wh % 2 := Nat.and_one_is_mod wh
  have h3 : wh &&& 3 = wh % 4 := land_three wh
  unfold pci_bus_read_config_word pci_bus_read_config_dword
  simp only [h1, h3]
  repeat' apply And.intro
  all_goals first
    | trivial
    | (intro h; simp [h])

/-- Claim C10 witness: a misaligned dword read at `wh = 2` against a
backend that would have produced a nonzero value — the out-parameter is
forced to `0` with `-EINVAL` — and an aligned one whose out-parameter
receives the truncated backend data. -/
theorem C10_out_param_always_written_witness :
    pci_bus_read_config_dword ⟨fun _ _ _ => (-5, 0x123456789), fun _ _ _ _ => 0⟩ 8 2 77 =
      ⟨-22, 0, false⟩ ∧
    (pci_bus_read_config_dword ⟨fun _ _ _ => (-5, 0x123456789), fun _ _ _ _ => 0⟩ 8 4 77).value =
      0x23456789 := by
  have hm := C10_out_param_always_written
    ⟨fun _ _ _ => (-5, 0x123456789), fun _ _ _ _ => 0⟩ 8 2 77 77
  have ha := C10_out_param_always_written
    ⟨fun _ _ _ => (-5, 0x123456789), fun _ _ _ _ => 0⟩ 8 4 77 77
  refine ⟨hm.2.1 (by decide), ?_⟩
  have h := ha.2.2.2.2.2 (by decide)
  rw [h]
  norm_num

/-! ## Claim C9: capability walk termination and TTL bound -/

set_option maxRecDepth 8192 in
/-- Masking a position to `~3` (8-bit) keeps it at or above `0x40` when
it was, keeps it below `256`, and makes it 4-byte aligned. -/
theorem pos_mask_facts : ∀ pos : Nat, pos < 256 →
    (0x40 ≤ pos → 0x40 ≤ pos &&& 0xfc) ∧ (pos &&& 0xfc) % 4 = 0 ∧ pos &&& 0xfc < 256 := by
  decide

/-- Invariant of the capability-walk loop: the body runs at most `ttl`
times, and the result is `0` (sentinel ID `0xff`, pointer below `0x40`,
or TTL exhaustion) or a 4-byte-aligned position at or above `0x40`
whose entry's low byte is the requested capability. -/
theorem findNextCapLoop_spec (bus : CfgOps) (devfn cap : Nat) :
    ∀ ttl pos, pos < 256 →
    (findNextCapLoop bus devfn cap ttl pos).2 ≤ ttl ∧
    ((findNextCapLoop bus devfn cap ttl pos).1 = 0 ∨
      (0x40 ≤ (findNextCapLoop bus devfn cap ttl pos).1 ∧
       (findNextCapLoop bus devfn cap ttl pos).1 % 4 = 0 ∧
       ((pci_bus_read_config_word bus devfn
           (findNextCapLoop bus devfn cap ttl pos).1 0).value &&& 0xff) = cap)) := by
  intro ttl
  induction ttl with
  | zero =>
    intro pos hpos
    simp [findNextCapLoop]
  | succ t ih =>
    intro pos hpos
    rw [findNextCapLoop]
    by_cases hlt : pos < 0x40
    · simp [hlt]
    · simp only [if_neg hlt]
      have hmask := pos_mask_facts pos hpos
      have hent : (pci_bus_read_config_word bus devfn (pos &&& 0xfc) 0).value < 2^16 := by
        unfold pci_bus_read_config_word
        split
        · norm_num
        · exact Nat.mod_lt _ (by norm_num)
      by_cases hff : (pci_bus_read_config_word bus devfn (pos &&& 0xfc) 0).value &&& 0xff = 0xff
      · simp [hff]
      · simp only [if_neg hff]
        by_cases hcap :
            (pci_bus_read_config_word bus devfn (pos &&& 0xfc) 0).value &&& 0xff = cap
        · simp only [if_pos hcap]
          refine ⟨by norm_num, Or.inr ⟨hmask.1 (by omega), hmask.2.1, hcap⟩⟩
        · simp only [if_neg hcap]
          have hnext : (pci_bus_read_config_word bus devfn (pos &&& 0xfc) 0).value >>> 8 < 256 := by
            rw [Nat.shiftRight_eq_div_pow]
            omega
          have h := ih ((pci_bus_read_config_word bus devfn (pos &&& 0xfc) 0).value >>> 8) hnext
          exact ⟨by omega, h.2⟩

/-- Claim C9: for every backend and starting position the capability
walk `pci_find_next_cap` (TTL 48) terminates — it is a total function
whose loop body runs at most 48 times — and it returns `0` when it
stopped on the `0xff` sentinel ID, a next pointer below `0x40`, or TTL
exhaustion, and otherwise the (4-byte aligned, `≥ 0x40`) position whose
capability-entry low byte equals the requested capability id. -/
theorem C9_cap_walk_ttl (bus : CfgOps) (devfn pos cap : Nat) :
    (pci_find_next_cap bus devfn pos cap).2 ≤ 48 ∧
    ((pci_find_next_cap bus devfn pos cap).1 = 0 ∨
      (0x40 ≤ (pci_find_next_cap bus devfn pos cap).1 ∧
       (pci_find_next_cap bus devfn pos cap).1 % 4 = 0 ∧
       ((pci_bus_read_config_word bus devfn
           (pci_find_next_cap bus devfn pos cap).1 0).value &&& 0xff) = cap)) := by
  have hstart : (pci_bus_read_config_byte bus devfn pos 0).value < 256 := by
    unfold pci_bus_read_config_byte
    exact Nat.mod_lt _ (by norm_num)
  exact findNextCapLoop_spec bus devfn cap 48 _ hstart

/-! ## Claim C8: `pci_size` characterisation -/

/-- Claim C8: `pci_size` returns `0` when `maxbase & mask` is `0`;
otherwise, with `size = (m & -m) - 1` for `m = maxbase & mask` (the bits
below and including the lowest set bit, minus one — `pci_size_spec` is
that wording verbatim, with 32-bit `-m = 2^32 - m`), it returns `0` when
`base == maxbase` and `((base | size) & mask) != mask`, and otherwise
`size + 1`, which is a power of two.  The code's
`size & ~(size - 1)` equals the claim's `size & -size` because the
32-bit complement of `m - 1` is `2^32 - m`. -/
theorem C8_pci_size (base maxbase mask : Nat) (hmb : maxbase < 2^32) :
    pci_size base maxbase mask = pci_size_spec base maxbase mask ∧
    (pci_size base maxbase mask ≠ 0 → ∃ k, pci_size base maxbase mask = 2^k) := by
  have hle : maxbase &&& mask ≤ maxbase := Nat.and_le_left
  by_cases h0 : maxbase &&& mask = 0
  · constructor
    · simp [pci_size, pci_size_spec, h0]
    · intro hne
      exfalso
      apply hne
      simp [pci_size, h0]
  · have hpos : 0 < maxbase &&& mask := Nat.pos_of_ne_zero h0
    have hlt : maxbase &&& mask < 2^32 := by omega
    have hcompl : compl32 ((maxbase &&& mask) - 1) = 2^32 - (maxbase &&& mask) := by
      unfold compl32
      generalize maxbase &&& mask = m at hpos hlt ⊢
      omega
    obtain ⟨k, hk⟩ := lowbit_pow2 32 (maxbase &&& mask) hpos hlt
    have heq : pci_size base maxbase mask = pci_size_spec base maxbase mask := by
      simp only [pci_size, pci_size_spec, hcompl]
    refine ⟨heq, ?_⟩
    rw [heq]
    simp only [pci_size_spec, if_neg h0]
    intro hne
    refine ⟨k, ?_⟩
    split at hne
    · exact (hne rfl).elim
    · split
      · rename_i hg1 hg2
        exact (hg1 hg2).elim
      · rw [hk]
        have h1 : (1:Nat) ≤ 2^k := Nat.one_le_two_pow
        omega

/-- Claim C8 witness: the 8 KiB memory BAR example from the spec's test
scenarios: `pci_size 0 0xffffe000 0xfffffffe = 0x2000 = 2^13`. -/
theorem C8_pci_size_witness :
    (0xffffe000 : Nat) < 2^32 ∧
    pci_size 0 0xffffe000 0xfffffffe = pci_size_spec 0 0xffffe000 0xfffffffe ∧
    pci_size 0 0xffffe000 0xfffffffe = 0x2000 := by
  have h := C8_pci_size 0 0xffffe000 0xfffffffe (by norm_num)
  exact ⟨by norm_num, h.1, by decide⟩

/-! ## Registry lemmas (claims C2, C3) -/

/-- The `pci_register_driver` id-table loop never looks past the
sentinel entry (`id->vendor == 0`). -/
theorem driver_loop_sentinel (probe : PciDev → Bool) (dev : PciDev) :
    ∀ tbl bound cnt, driver_match_loop probe dev tbl bound cnt =
      driver_match_loop probe dev (sentinelTrunc tbl) bound cnt := by
  intro tbl
  induction tbl with
  | nil => intro bound cnt; simp [sentinelTrunc]
  | cons id rest ih =>
    intro bound cnt
    by_cases h : id.vendor = 0
    · simp [driver_match_loop, sentinelTrunc, h]
    · by_cases hm : pci_match_one_device id dev <;>
        simp [driver_match_loop, sentinelTrunc, h, hm, ih]

/-- The `pci_register_device` id-table loop never looks past the
sentinel entry. -/
theorem device_loop_sentinel (probe : PciDev → Bool) (dev : PciDev) :
    ∀ tbl cnt, device_match_loop probe dev tbl cnt =
      device_match_loop probe dev (sentinelTrunc tbl) cnt := by
  intro tbl
  induction tbl with
  | nil => intro cnt; simp [sentinelTrunc]
  | cons id rest ih =>
    intro cnt
    by_cases h : id.vendor = 0
    · simp [device_match_loop, sentinelTrunc, h]
    · by_cases hm : pci_match_one_device id dev <;>
        simp [device_match_loop, sentinelTrunc, h, hm, ih]

/-- In the `pci_register_device` loop, once an entry matches and its
probe succeeds the iteration breaks: everything after that entry is
irrelevant. -/
theorem device_loop_stops (probe : PciDev → Bool) (dev : PciDev)
    (hp : probe dev = true) :
    ∀ (pre : List DeviceId) (e : DeviceId) (post : List DeviceId) (cnt : Nat),
      e.vendor ≠ 0 → pci_match_one_device e dev = true →
      device_match_loop probe dev (pre ++ e :: post) cnt =
        device_match_loop probe dev (pre ++ [e]) cnt := by
  intro pre
  induction pre with
  | nil =>
    intro e post cnt hv hm
    simp [device_match_loop, hv, hm, hp]
  | cons q rest ih =>
    intro e post cnt hv hm
    by_cases h : q.vendor = 0
    · simp [device_match_loop, h]
    · by_cases hq : pci_match_one_device q dev
      · simp [device_match_loop, h, hq, hp]
      · simp only [List.cons_append, device_match_loop, if_neg h, if_neg hq]
        exact ih e post cnt hv hm

/-- Binding outcome of the `pci_register_driver` id-table loop: the
device ends bound (to this driver) iff it was already, or the probe
succeeds and some pre-sentinel entry matches — independent of how many
entries match. -/
theorem driver_loop_binds (probe : PciDev → Bool) (dev : PciDev) :
    ∀ tbl bound cnt, (driver_match_loop probe dev tbl bound cnt).1 =
      (bound || (probe dev && someEntryMatches tbl dev)) := by
  intro tbl
  induction tbl with
  | nil => intro bound cnt; simp [driver_match_loop, someEntryMatches, sentinelTrunc]
  | cons id rest ih =>
    intro bound cnt
    by_cases h : id.vendor = 0
    · simp [driver_match_loop, someEntryMatches, sentinelTrunc, h]
    · by_cases hm : pci_match_one_device id dev
      · simp only [driver_match_loop, if_neg h, if_pos hm, ih,
          someEntryMatches, sentinelTrunc]
        cases hpd : probe dev <;> cases bound <;> simp [List.takeWhile, h, hm, hpd]
      · simp only [driver_match_loop, if_neg h, if_neg hm, ih,
          someEntryMatches, sentinelTrunc]
        simp [List.takeWhile, h, hm]

/-- Probe count of the `pci_register_driver` id-table loop: every
matching pre-sentinel entry is probed, even after a successful bind. -/
theorem driver_loop_probe_count (probe : PciDev → Bool) (dev : PciDev) :
    ∀ tbl bound cnt, (driver_match_loop probe dev tbl bound cnt).2 =
      cnt + ((sentinelTrunc tbl).filter fun id => pci_match_one_device id dev).length := by
  intro tbl
  induction tbl with
  | nil => intro bound cnt; simp [driver_match_loop, sentinelTrunc]
  | cons id rest ih =>
    intro bound cnt
    by_cases h : id.vendor = 0
    · simp [driver_match_loop, sentinelTrunc, h]
    · by_cases hm : pci_match_one_device id dev
      · simp [driver_match_loop, sentinelTrunc, h, hm, ih, List.takeWhile, List.filter]
        omega
      · simp [driver_match_loop, sentinelTrunc, h, hm, ih, List.takeWhile, List.filter]

/-- Binding outcome of the `pci_register_device` per-driver loop with an
always-succeeding probe: bound iff some pre-sentinel entry matches. -/
theorem device_loop_binds_true (dev : PciDev) :
    ∀ tbl cnt, (device_match_loop (fun _ => true) dev tbl cnt).1 =
      someEntryMatches tbl dev := by
  intro tbl
  induction tbl with
  | nil => intro cnt; simp [device_match_loop, someEntryMatches, sentinelTrunc]
  | cons id rest ih =>
    intro cnt
    by_cases h : id.vendor = 0
    · simp [device_match_loop, someEntryMatches, sentinelTrunc, h]
    · by_cases hm : pci_match_one_device id dev <;>
        simp [device_match_loop, someEntryMatches, sentinelTrunc, List.takeWhile, h, hm, ih]

/-- Folding `pci_register_device` over a device list: the driver list is
untouched and each device is appended with the binding produced by the
scan of the (fixed) driver list. -/
theorem register_device_fold : ∀ (devs : List PciDev) (st : RegState),
    (devs.foldl pci_register_device st).drivers = st.drivers ∧
    (devs.foldl pci_register_device st).devices =
      st.devices ++ devs.map (fun d => (d, bind_device_loop d 0 none st.drivers)) := by
  intro devs
  induction devs with
  | nil => intro st; simp
  | cons d rest ih =>
    intro st
    have h := ih (pci_register_device st d)
    simp only [List.foldl_cons, List.map_cons]
    refine ⟨h.1, ?_⟩
    rw [h.2]
    simp [pci_register_device]

/-- Folding `pci_register_driver` over a driver list: the drivers are
appended in order, and each already-registered device that was unbound
ends bound to the first driver (in registration order) whose scan
succeeds. -/
theorem register_driver_fold : ∀ (drvs : List PciDriver) (st : RegState),
    (drvs.foldl pci_register_driver st).drivers = st.drivers ++ drvs ∧
    (drvs.foldl pci_register_driver st).devices =
      st.devices.map (fun p => (p.1,
        match p.2 with
        | some i => some i
        | none => firstHitFrom p.1 st.drivers.length drvs)) := by
  intro drvs
  induction drvs with
  | nil =>
    intro st
    refine ⟨by simp, ?_⟩
    have hpt : ∀ p : PciDev × Option Nat, (p.1,
        match p.2 with
        | some i => some i
        | none => firstHitFrom p.1 st.drivers.length []) = p := by
      intro p
      obtain ⟨a, b⟩ := p
      cases b <;> simp [firstHitFrom]
    simp only [List.foldl_nil, hpt]
    simp
  | cons drv rest ih =>
    intro st
    have h := ih (pci_register_driver st drv)
    have hdrv : (pci_register_driver st drv).drivers = st.drivers ++ [drv] := rfl
    have hdev : (pci_register_driver st drv).devices =
        st.devices.map (fun p =>
          match p.2 with
          | some i => (p.1, some i)
          | none => (p.1, if (register_driver_scan drv p.1).1
              then some st.drivers.length else none)) := rfl
    rw [List.foldl_cons]
    refine ⟨by rw [h.1, hdrv]; simp, ?_⟩
    rw [h.2, hdrv, hdev, List.map_map]
    apply List.map_congr_left
    intro p hp
    simp only [Function.comp, List.length_append, List.length_singleton]
    obtain ⟨a, b⟩ := p
    cases b with
    | some i => simp
    | none =>
      by_cases hs : (register_driver_scan drv a).1
      · simp [hs, firstHitFrom]
      · simp [hs, firstHitFrom]

/-- `pci_register_device`'s scan of an always-succeeding driver binds
iff some pre-sentinel entry matches. -/
theorem register_device_scan_mk (tbl : List DeviceId) (dev : PciDev) :
    (register_device_scan (mkDriver tbl) dev).1 = someEntryMatches tbl dev :=
  device_loop_binds_true dev tbl 0

/-- `pci_register_driver`'s scan of an always-succeeding driver binds
iff some pre-sentinel entry matches. -/
theorem register_driver_scan_mk (tbl : List DeviceId) (dev : PciDev) :
    (register_driver_scan (mkDriver tbl) dev).1 = someEntryMatches tbl dev := by
  have h := driver_loop_binds (fun _ => true) dev tbl false 0
  simpa [register_driver_scan, mkDriver] using h

/-- Unfolding `countHits` over a cons of driver tables. -/
theorem countHits_cons (tbl : List DeviceId) (tbls : List (List DeviceId)) (dev : PciDev) :
    countHits ((tbl :: tbls).map mkDriver) dev =
      (if someEntryMatches tbl dev then 1 else 0) + countHits (tbls.map mkDriver) dev := by
  by_cases hm : someEntryMatches tbl dev <;>
    simp [countHits, mkDriver, List.filter, hm, Nat.add_comm]

/-- A device matched by none of the drivers keeps whatever binding the
`pci_register_device` driver fold has accumulated. -/
theorem no_hit_bind_loop (dev : PciDev) : ∀ (tbls : List (List DeviceId)) (i : Nat)
    (acc : Option Nat), countHits (tbls.map mkDriver) dev = 0 →
    bind_device_loop dev i acc (tbls.map mkDriver) = acc := by
  intro tbls
  induction tbls with
  | nil => intro i acc h; rfl
  | cons tbl rest ih =>
    intro i acc h
    rw [countHits_cons] at h
    have hm : someEntryMatches tbl dev = false := by
      by_cases hx : someEntryMatches tbl dev
      · rw [hx] at h; simp at h
      · simpa using hx
    have hrest : countHits (rest.map mkDriver) dev = 0 := by
      rw [hm] at h; simpa using h
    simp only [List.map_cons, bind_device_loop, register_device_scan_mk, hm]
    simpa using ih (i + 1) acc hrest

/-- A device matched by none of the drivers is found by no
`register_driver`-style scan either. -/
theorem no_hit_first (dev : PciDev) : ∀ (tbls : List (List DeviceId)) (i : Nat),
    countHits (tbls.map mkDriver) dev = 0 →
    firstHitFrom dev i (tbls.map mkDriver) = none := by
  intro tbls
  induction tbls with
  | nil => intro i h; rfl
  | cons tbl rest ih =>
    intro i h
    rw [countHits_cons] at h
    have hm : someEntryMatches tbl dev = false := by
      by_cases hx : someEntryMatches tbl dev
      · rw [hx] at h; simp at h
      · simpa using hx
    have hrest : countHits (rest.map mkDriver) dev = 0 := by
      rw [hm] at h; simpa using h
    simp only [List.map_cons, firstHitFrom, register_driver_scan_mk, hm]
    simpa using ih (i + 1) hrest

/-- When at most one driver matches the device, the
`pci_register_device` fold (last matching driver wins) and the
`pci_register_driver` order (first matching driver wins) agree. -/
theorem last_eq_first (dev : PciDev) : ∀ (tbls : List (List DeviceId)) (i : Nat),
    countHits (tbls.map mkDriver) dev ≤ 1 →
    bind_device_loop dev i none (tbls.map mkDriver) =
      firstHitFrom dev i (tbls.map mkDriver) := by
  intro tbls
  induction tbls with
  | nil => intro i h; rfl
  | cons tbl rest ih =>
    intro i h
    rw [countHits_cons] at h
    by_cases hm : someEntryMatches tbl dev
    · have hrest : countHits (rest.map mkDriver) dev = 0 := by
        rw [if_pos hm] at h; omega
      simp only [List.map_cons, bind_device_loop, firstHitFrom,
        register_device_scan_mk, register_driver_scan_mk, hm, if_pos]
      simpa using no_hit_bind_loop dev rest (i + 1) (some i) hrest
    · have hrest : countHits (rest.map mkDriver) dev ≤ 1 := by
        rw [if_neg hm] at h; omega
      have hm' : someEntryMatches tbl dev = false := by simpa using hm
      simp only [List.map_cons, bind_device_loop, firstHitFrom,
        register_device_scan_mk, register_driver_scan_mk, hm']
      simpa using ih (i + 1) hrest

/-! ## Claim C2: registration order -/

/-- Claim C2 counterexample: two always-succeeding drivers whose tables
both match one device.  Registering the drivers first and then the
device binds the device to driver 1 (`pci_register_device` keeps
scanning later drivers after a successful bind — the `break` only leaves
the id-table loop); registering the device first binds it to driver 0
and `pci_register_driver` then skips the already-bound device.  The two
final binding maps differ, refuting the claim as stated. -/
theorem C2_order_counterexample :
    bindings (driversThenDevices
        [mkDriver [⟨0xffff, 0xffff, 0xffff, 0xffff, 1, 0⟩, ⟨0, 0, 0, 0, 0, 0⟩],
         mkDriver [⟨0xffff, 0xffff, 0xffff, 0xffff, 1, 0⟩, ⟨0, 0, 0, 0, 0, 0⟩]]
        [⟨5, 6, 7, 8, 0⟩]) = [some 1] ∧
    bindings (devicesThenDrivers
        [mkDriver [⟨0xffff, 0xffff, 0xffff, 0xffff, 1, 0⟩, ⟨0, 0, 0, 0, 0, 0⟩],
         mkDriver [⟨0xffff, 0xffff, 0xffff, 0xffff, 1, 0⟩, ⟨0, 0, 0, 0, 0, 0⟩]]
        [⟨5, 6, 7, 8, 0⟩]) = [some 0] ∧
    [some 1] ≠ [some (0 : Nat)] := by
  refine ⟨by decide, by decide, by decide⟩

/-- Claim C2 as amended: with deterministic always-succeeding probes,
registering all drivers first and then all devices yields the same final
device-to-driver binding map as the reverse order, *provided each device
is matched by at most one of the drivers* (the counterexample shows the
orders disagree — last versus first matching driver — as soon as two
drivers match the same device). -/
theorem C2_registration_order_amended (tbls : List (List DeviceId)) (devs : List PciDev)
    (h : ∀ dev ∈ devs, countHits (tbls.map mkDriver) dev ≤ 1) :
    bindings (driversThenDevices (tbls.map mkDriver) devs) =
      bindings (devicesThenDrivers (tbls.map mkDriver) devs) := by
  have h1 := register_driver_fold (tbls.map mkDriver) RegState.empty
  have h2 := register_device_fold devs
    ((tbls.map mkDriver).foldl pci_register_driver RegState.empty)
  have h3 := register_device_fold devs RegState.empty
  have h4 := register_driver_fold (tbls.map mkDriver)
    (devs.foldl pci_register_device RegState.empty)
  have hempty_dev : RegState.empty.devices = [] := rfl
  have hempty_drv : RegState.empty.drivers = [] := rfl
  -- left-hand side: drivers first, then devices
  have hL : bindings (driversThenDevices (tbls.map mkDriver) devs) =
      devs.map fun d => bind_device_loop d 0 none (tbls.map mkDriver) := by
    unfold driversThenDevices bindings
    rw [h2.2, h1.2, hempty_dev, h1.1, hempty_drv]
    simp [List.map_map, Function.comp]
  -- right-hand side: devices first, then drivers
  have hR : bindings (devicesThenDrivers (tbls.map mkDriver) devs) =
      devs.map fun d => firstHitFrom d 0 (tbls.map mkDriver) := by
    unfold devicesThenDrivers bindings
    rw [h4.2, h3.2, h3.1, hempty_dev, hempty_drv]
    simp only [List.nil_append, List.map_map, Function.comp]
    apply List.map_congr_left
    intro d hd
    rfl
  rw [hL, hR]
  apply List.map_congr_left
  intro d hd
  exact last_eq_first d tbls 0 (h d hd)

/-- Claim C2 witness: a single matching driver and a single device;
the hypothesis (at most one matching driver per device) holds and both
registration orders give the same binding map. -/
theorem C2_registration_order_amended_witness :
    (∀ dev ∈ [(⟨5, 6, 7, 8, 0⟩ : PciDev)],
      countHits ([[⟨0xffff, 0xffff, 0xffff, 0xffff, 1, 0⟩, ⟨0, 0, 0, 0, 0, 0⟩]].map mkDriver)
        dev ≤ 1) ∧
    bindings (driversThenDevices
        ([[⟨0xffff, 0xffff, 0xffff, 0xffff, 1, 0⟩, ⟨0, 0, 0, 0, 0, 0⟩]].map mkDriver)
        [⟨5, 6, 7, 8, 0⟩]) =
      bindings (devicesThenDrivers
        ([[⟨0xffff, 0xffff, 0xffff, 0xffff, 1, 0⟩, ⟨0, 0, 0, 0, 0, 0⟩]].map mkDriver)
        [⟨5, 6, 7, 8, 0⟩]) :=
  ⟨by decide, C2_registration_order_amended _ _ (by decide)⟩

/-! ## Claim C3: first-match-wins and sentinel stop -/

/-- Claim C3 counterexample: a driver table whose first two entries both
match the device (always-succeeding probe).  In the
`pci_register_driver` device loop the first entry matches, its probe
succeeds and the binding is recorded — yet the loop has no `break`, so
the second entry is also matched and probed: the probe count is 2,
refuting "once a matching entry's probe succeeds and the binding is
recorded, no later entry of the same table is matched or probed". -/
theorem C3_first_match_counterexample :
    pci_match_one_device ⟨0xffff, 0xffff, 0xffff, 0xffff, 1, 0⟩ ⟨5, 6, 7, 8, 0⟩ = true ∧
    (mkDriver [⟨0xffff, 0xffff, 0xffff, 0xffff, 1, 0⟩,
               ⟨0xffff, 0xffff, 0xffff, 0xffff, 3, 0⟩,
               ⟨0, 0, 0, 0, 0, 0⟩]).probe ⟨5, 6, 7, 8, 0⟩ = true ∧
    register_driver_scan
      (mkDriver [⟨0xffff, 0xffff, 0xffff, 0xffff, 1, 0⟩,
                 ⟨0xffff, 0xffff, 0xffff, 0xffff, 3, 0⟩,
                 ⟨0, 0, 0, 0, 0, 0⟩])
      ⟨5, 6, 7, 8, 0⟩ = (true, 2) := by
  refine ⟨by decide, by decide, by decide⟩

/-- Claim C3 as amended: in both registration loops the id-table
iteration stops at the sentinel entry (`vendor == 0`); in
`pci_register_device` a matching entry whose probe succeeds ends the
iteration (`break`), so nothing after it is matched or probed; in
`pci_register_driver` there is no `break` — every matching pre-sentinel
entry is probed, even after a successful bind (the counterexample) —
but the binding outcome is unchanged: the device ends bound iff the
probe succeeds and some pre-sentinel entry matches. -/
theorem C3_first_match_amended :
    (∀ (probe : PciDev → Bool) (dev : PciDev) (tbl : List DeviceId) (bound : Bool) (cnt : Nat),
      driver_match_loop probe dev tbl bound cnt =
        driver_match_loop probe dev (sentinelTrunc tbl) bound cnt) ∧
    (∀ (probe : PciDev → Bool) (dev : PciDev) (tbl : List DeviceId) (cnt : Nat),
      device_match_loop probe dev tbl cnt =
        device_match_loop probe dev (sentinelTrunc tbl) cnt) ∧
    (∀ (probe : PciDev → Bool) (dev : PciDev) (pre : List DeviceId) (e : DeviceId)
        (post : List DeviceId) (cnt : Nat),
      probe dev = true → e.vendor ≠ 0 → pci_match_one_device e dev = true →
      device_match_loop probe dev (pre ++ e :: post) cnt =
        device_match_loop probe dev (pre ++ [e]) cnt) ∧
    (∀ (probe : PciDev → Bool) (dev : PciDev) (tbl : List DeviceId) (bound : Bool) (cnt : Nat),
      (driver_match_loop probe dev tbl bound cnt).1 =
        (bound || (probe dev && someEntryMatches tbl dev))) ∧
    (∀ (probe : PciDev → Bool) (dev : PciDev) (tbl : List DeviceId) (bound : Bool) (cnt : Nat),
      (driver_match_loop probe dev tbl bound cnt).2 =
        cnt + ((sentinelTrunc tbl).filter fun id => pci_match_one_device id dev).length) :=
  ⟨driver_loop_sentinel, device_loop_sentinel,
   fun probe dev pre e post cnt hp hv hm => device_loop_stops probe dev hp pre e post cnt hv hm,
   driver_loop_binds, driver_loop_probe_count⟩

/-- Claim C3 witness: the break-after-success property applied at a
concrete table — entries after a matching, successfully probed entry
are never reached by the `pci_register_device` loop. -/
theorem C3_first_match_amended_witness :
    device_match_loop (fun _ => true) ⟨5, 6, 7, 8, 0⟩
        ([⟨0x8086, 0xffff, 0xffff, 0xffff, 0, 1⟩] ++
          ⟨0xffff, 0xffff, 0xffff, 0xffff, 3, 0⟩ :: [⟨9, 9, 9, 9, 9, 9⟩]) 0 =
      device_match_loop (fun _ => true) ⟨5, 6, 7, 8, 0⟩
        ([⟨0x8086, 0xffff, 0xffff, 0xffff, 0, 1⟩] ++
          [⟨0xffff, 0xffff, 0xffff, 0xffff, 3, 0⟩]) 0 :=
  C3_first_match_amended.2.2.1 (fun _ => true) ⟨5, 6, 7, 8, 0⟩
    [⟨0x8086, 0xffff, 0xffff, 0xffff, 0, 1⟩] ⟨0xffff, 0xffff, 0xffff, 0xffff, 3, 0⟩
    [⟨9, 9, 9, 9, 9, 9⟩] 0 rfl (by decide) (by decide)

/-! ## Claim C4: BAR window exhaustion aborts the device -/

/-- Claim C4 counterexample: one device with a 16-byte I/O BAR against
an I/O window `[0x1000, 0x1003]` that cannot fit it.  The BAR setup
aborts — nothing is programmed, no resource is populated — and crucially
`added = false`: the early `return` at `pci.c`:449 skips the
`list_add_tail(&dev->bus->devices, &dev->bus_list)` at line 495, so the
device is *not* recorded on its bus's device list and is therefore never
published to the global registry by `pci_register_bus_devices` (which
walks exactly `bus->devices`), refuting the claim's "the device itself
continues through enumeration". -/
theorem C4_bar_overflow_counterexample :
    pci_setup_device
        ⟨⟨0x1000, 0x1003, 0⟩, ⟨0, 0, 0⟩, ⟨0, 0, 0⟩⟩
        [⟨0, 0xfffffff1⟩] =
      ⟨⟨⟨0x1000, 0x1003, 0⟩, ⟨0, 0, 0⟩, ⟨0, 0, 0⟩⟩, [], [], false⟩ ∧
    (pci_setup_device
        ⟨⟨0x1000, 0x1003, 0⟩, ⟨0, 0, 0⟩, ⟨0, 0, 0⟩⟩
        [⟨0, 0xfffffff1⟩]).added = false := by
  refine ⟨by decide, by decide⟩

/-- Unfolding lemma: `setupBars` on the empty probe list. -/
theorem setupBars_nil (skip : Bool) (wins : CtrlWins) (bar : Nat) :
    setupBars [] skip wins bar =
      { wins := wins, resources := [], writes := [], added := true } := rfl

/-- Unfolding lemma: a probe consumed as the high half of a 64-bit BAR
is skipped without being examined. -/
theorem setupBars_skip (p : BarProbe) (rest : List BarProbe) (wins : CtrlWins) (bar : Nat) :
    setupBars (p :: rest) true wins bar = setupBars rest false wins bar := rfl

/-- Unfolding lemma for one step of the `setupBars` loop (the
definition is structurally recursive, so this is definitional). -/
theorem setupBars_cons (p : BarProbe) (rest : List BarProbe) (wins : CtrlWins) (bar : Nat) :
    setupBars (p :: rest) false wins bar =
      (if p.mask = 0 ∨ p.mask = 0xffffffff then
        setupBars rest false wins (bar + 1)
      else
        let c := classifyBar wins p
        let size := c.1
        let flags := c.2.1
        let sel := c.2.2
        if size = 0 then
          setupBars rest false wins (bar + 1)
        else
          let res := getWin wins sel
          if ALIGN res.start size + size > res.end_ then
            { wins := wins, resources := [], writes := [], added := false }
          else
            let a := ALIGN res.start size
            let is64 := p.mask &&& 4 ≠ 0
            let wins' := setWin wins sel { res with start := a + size }
            let entry : Nat × PciResource :=
              (bar, { start := a, end_ := a + size - 1,
                      flags := flags ||| (if is64 then 8 else 0) })
            let r :=
              if p.mask &&& 4 ≠ 0 then setupBars rest true wins' (bar + 2)
              else setupBars rest false wins' (bar + 1)
            { wins := r.wins
              resources := entry :: r.resources
              writes := (0x10 + bar * 4, a) ::
                ((if is64 then [(0x14 + bar * 4, a >>> 32)] else []) ++ r.writes)
              added := r.added }) := rfl

/-- Claim C4 as amended: when a sizable BAR does not fit its window
(`ALIGN(res->start, size) + size > res->end`), the exhaustion is logged
but not returned as an error (the function has no error result), that
BAR is left unprogrammed, the device's remaining BAR setup is aborted —
and, contrary to the original claim, the early `return` also skips the
trailing `list_add_tail`, so the device is **not** recorded on its bus's
device list and is not later published to the global registry: the
result is exactly the untouched windows with no writes, no resources,
and `added = false`. -/
theorem C4_bar_overflow_amended (wins : CtrlWins) (bar : Nat) (p : BarProbe)
    (rest : List BarProbe)
    (h1 : ¬(p.mask = 0 ∨ p.mask = 0xffffffff))
    (h2 : (classifyBar wins p).1 ≠ 0)
    (h3 : ALIGN (getWin wins (classifyBar wins p).2.2).start (classifyBar wins p).1 +
        (classifyBar wins p).1 > (getWin wins (classifyBar wins p).2.2).end_) :
    setupBars (p :: rest) false wins bar = ⟨wins, [], [], false⟩ := by
  rw [setupBars_cons]
  simp only [if_neg h1]
  simp only [if_neg h2, if_pos h3]

/-- Claim C4 witness: the amended behaviour evaluated at the concrete
overflowing input. -/
theorem C4_bar_overflow_amended_witness :
    setupBars [(⟨0, 0xfffffff1⟩ : BarProbe)] false
        ⟨⟨0x1000, 0x1003, 0⟩, ⟨0, 0, 0⟩, ⟨0, 0, 0⟩⟩ 3 =
      ⟨⟨⟨0x1000, 0x1003, 0⟩, ⟨0, 0, 0⟩, ⟨0, 0, 0⟩⟩, [], [], false⟩ :=
  C4_bar_overflow_amended ⟨⟨0x1000, 0x1003, 0⟩, ⟨0, 0, 0⟩, ⟨0, 0, 0⟩⟩ 3 ⟨0, 0xfffffff1⟩ []
    (by decide) (by decide) (by decide)

/-! ## Window-allocation helper lemmas (claim C5) -/

theorem ALIGN_ge (x m : Nat) (hm : 0 < m) : x ≤ ALIGN x m := by
  unfold ALIGN
  have h := Nat.div_add_mod (x + m - 1) m
  have h2 : (x + m - 1) % m < m := Nat.mod_lt _ hm
  have h3 : (x + m - 1) / m * m = m * ((x + m - 1) / m) := Nat.mul_comm _ _
  omega

theorem ALIGN_mod (x m : Nat) : ALIGN x m % m = 0 := by
  unfold ALIGN
  exact Nat.mul_mod_left _ _

/-- The arithmetic `ALIGN` equals the C macro's bit-level form
`(x + (m-1)) & ~(m-1)` for power-of-two `m` on a 64-bit machine. -/
theorem ALIGN_models_land (k x : Nat) (h : x + 2^k ≤ 2^64) :
    (x + (2^k - 1)) &&& (2^64 - 2^k) = ALIGN x (2^k) := by
  have hk : k ≤ 64 := by
    by_contra hgt
    have : (2:Nat)^64 < 2^k := Nat.pow_lt_pow_right (by norm_num) (by omega)
    have hx : (0:Nat) < 2^k := Nat.pos_pow_of_pos _ (by norm_num)
    omega
  have hkpos : (0:Nat) < 2^k := Nat.pos_pow_of_pos _ (by norm_num)
  have hexp : (64 - k) + k = 64 := by omega
  have hmask : 2^64 - 2^k = (2^(64-k) - 1) <<< k := by
    rw [Nat.shiftLeft_eq, Nat.sub_mul, one_mul, ← Nat.pow_add, hexp]
  have ha : x + (2^k - 1) = x + 2^k - 1 := by omega
  have halign : ALIGN x (2^k) = ((x + 2^k - 1) >>> k) <<< k := by
    unfold ALIGN
    rw [Nat.shiftLeft_eq, Nat.shiftRight_eq_div_pow]
  rw [hmask, ha, halign]
  apply Nat.eq_of_testBit_eq
  intro i
  rw [Nat.testBit_and, Nat.testBit_shiftLeft, Nat.testBit_shiftLeft]
  by_cases hki : k ≤ i
  · rw [Nat.testBit_two_pow_sub_one, Nat.testBit_shiftRight]
    have hik : k + (i - k) = i := by omega
    rw [hik]
    by_cases hi64 : i < 64
    · simp [hki, show i - k < 64 - k from by omega]
    · have hbound : x + 2^k - 1 < 2^i := by
        calc x + 2^k - 1 < 2^64 := by omega
        _ ≤ 2^i := Nat.pow_le_pow_right (by norm_num) (by omega)
      simp [hki, Nat.testBit_lt_two_pow hbound, show ¬(i - k < 64 - k) from by omega]
  · simp [hki]

/-- `pci_size` outputs are powers of two (or zero); shared by the BAR
classification (mask arguments `0xfffffff0` / `0xfffffffe`). -/
theorem pci_size_pow2 (base maxbase mask : Nat) (h : mask < 2^32) :
    pci_size base maxbase mask ≠ 0 → ∃ k, pci_size base maxbase mask = 2^k := by
  intro hne
  have hle : maxbase &&& mask ≤ mask := Nat.and_le_right
  by_cases h0 : maxbase &&& mask = 0
  · exfalso
    apply hne
    simp [pci_size, h0]
  · have hpos : 0 < maxbase &&& mask := Nat.pos_of_ne_zero h0
    have hlt : maxbase &&& mask < 2^32 := by omega
    have hcompl : compl32 ((maxbase &&& mask) - 1) = 2^32 - (maxbase &&& mask) := by
      unfold compl32
      generalize maxbase &&& mask = m at hpos hlt ⊢
      omega
    obtain ⟨k, hk⟩ := lowbit_pow2 32 (maxbase &&& mask) hpos hlt
    simp only [pci_size, if_neg h0, hcompl] at hne ⊢
    split at hne
    · exact (hne rfl).elim
    · rename_i hg
      refine ⟨k, ?_⟩
      rw [if_neg hg, hk]
      have h1 : (1:Nat) ≤ 2^k := Nat.one_le_two_pow
      omega

/-- The size computed by `classifyBar`, when nonzero, is a power of
two. -/
theorem classifyBar_size_pow2 (wins : CtrlWins) (p : BarProbe) :
    (classifyBar wins p).1 ≠ 0 → ∃ k, (classifyBar wins p).1 = 2^k := by
  unfold classifyBar
  split
  · intro h
    exact pci_size_pow2 _ _ _ (by norm_num) h
  · split
    · intro h
      exact pci_size_pow2 _ _ _ (by norm_num) h
    · intro h
      exact pci_size_pow2 _ _ _ (by norm_num) h

theorem getWin_setWin_same (w : CtrlWins) (sel : WinSel) (r : PciResource) :
    getWin (setWin w sel r) sel = r := by
  cases sel <;> rfl

theorem getWin_setWin_ne (w : CtrlWins) (sel sel' : WinSel) (r : PciResource)
    (h : sel' ≠ sel) : getWin (setWin w sel r) sel' = getWin w sel' := by
  cases sel <;> cases sel' <;> first | rfl | exact absurd rfl h

/-- The window each populated entry is attributed to by its flags is the
window `classifyBar` chose. -/
theorem entry_window (wins : CtrlWins) (p : BarProbe) (a b extra : Nat)
    (hx : extra = 8 ∨ extra = 0) (sel' : WinSel) :
    isFromWindow sel' ⟨a, b, (classifyBar wins p).2.1 ||| extra⟩ =
      decide ((classifyBar wins p).2.2 = sel') := by
  rcases hx with rfl | rfl <;>
    · unfold classifyBar
      split
      · cases sel' <;> simp [isFromWindow]
      · split
        · cases sel' <;> simp [isFromWindow]
        · cases sel' <;> simp [isFromWindow] <;> decide

theorem Stacked_le (l : List PciResource) : ∀ lo hi, Stacked lo l hi → lo ≤ hi := by
  induction l with
  | nil => intro lo hi h; exact h
  | cons r rs ih =>
    intro lo hi h
    obtain ⟨h1, h2, h3⟩ := h
    have := ih (r.end_ + 1) hi h3
    omega

theorem Stacked_append (l1 : List PciResource) : ∀ l2 lo mid hi,
    Stacked lo l1 mid → Stacked mid l2 hi → Stacked lo (l1 ++ l2) hi := by
  induction l1 with
  | nil =>
    intro l2 lo mid hi h1 h2
    simp only [List.nil_append]
    have hle : lo ≤ mid := h1
    clear h1
    induction l2 generalizing lo mid with
    | nil => exact le_trans hle h2
    | cons r rs ih2 =>
      obtain ⟨ha, hb, hc⟩ := h2
      exact ⟨by omega, hb, hc⟩
  | cons r rs ih =>
    intro l2 lo mid hi h1 h2
    obtain ⟨ha, hb, hc⟩ := h1
    exact ⟨ha, hb, ih l2 _ mid hi hc h2⟩

theorem Stacked_mono_lo (l : List PciResource) (lo lo' hi : Nat)
    (hle : lo ≤ lo') (h : Stacked lo' l hi) : Stacked lo l hi := by
  cases l with
  | nil => exact le_trans hle h
  | cons r rs =>
    obtain ⟨ha, hb, hc⟩ := h
    exact ⟨by omega, hb, hc⟩

theorem Stacked_bounds (l : List PciResource) : ∀ lo hi, Stacked lo l hi →
    ∀ q ∈ l, lo ≤ q.start ∧ q.start ≤ q.end_ ∧ q.end_ < hi := by
  induction l with
  | nil => intro lo hi h q hq; exact absurd hq (List.not_mem_nil q)
  | cons r rs ih =>
    intro lo hi h q hq
    obtain ⟨ha, hb, hc⟩ := h
    rcases List.mem_cons.mp hq with rfl | hmem
    · have := Stacked_le rs _ _ hc
      omega
    · have := ih _ _ hc q hmem
      omega

theorem Stacked_pairwise (l : List PciResource) : ∀ lo hi, Stacked lo l hi →
    l.Pairwise (fun a b => a.end_ < b.start) := by
  induction l with
  | nil => intro lo hi h; exact List.Pairwise.nil
  | cons r rs ih =>
    intro lo hi h
    obtain ⟨ha, hb, hc⟩ := h
    refine List.Pairwise.cons ?_ (ih _ _ hc)
    intro q hq
    have := Stacked_bounds rs _ _ hc q hq
    omega

/-- Per-window behaviour of the BAR loop: the window's end never moves,
the populated resources attributed to the window stack between the
window's start at entry and its start at exit, and each of them fits
under the window end with a power-of-two, size-aligned range. -/
theorem setupBars_window (sel : WinSel) :
    ∀ (probes : List BarProbe) (skip : Bool) (wins : CtrlWins) (bar : Nat),
    (getWin (setupBars probes skip wins bar).wins sel).end_ = (getWin wins sel).end_ ∧
    Stacked (getWin wins sel).start
      (((setupBars probes skip wins bar).resources.map (·.2)).filter (isFromWindow sel))
      (getWin (setupBars probes skip wins bar).wins sel).start ∧
    (∀ q ∈ ((setupBars probes skip wins bar).resources.map (·.2)).filter (isFromWindow sel),
      q.end_ ≤ (getWin wins sel).end_ ∧ (∃ k, q.end_ - q.start + 1 = 2^k) ∧
      q.start % (q.end_ - q.start + 1) = 0) := by
  intro probes
  induction probes with
  | nil =>
    intro skip wins bar
    rw [setupBars_nil]
    refine ⟨rfl, ?_, ?_⟩
    · show Stacked (getWin wins sel).start [] (getWin wins sel).start
      exact le_refl _
    · intro q hq
      exact absurd hq (List.not_mem_nil q)
  | cons p rest ih =>
    intro skip wins bar
    cases skip with
    | true =>
      rw [setupBars_skip]
      exact ih false wins bar
    | false =>
      rw [setupBars_cons]
      by_cases h1 : p.mask = 0 ∨ p.mask = 0xffffffff
      · simp only [if_pos h1]
        exact ih false wins (bar + 1)
      · simp only [if_neg h1]
        by_cases h2 : (classifyBar wins p).1 = 0
        · simp only [if_pos h2]
          exact ih false wins (bar + 1)
        · simp only [if_neg h2]
          by_cases h3 : ALIGN (getWin wins (classifyBar wins p).2.2).start
              (classifyBar wins p).1 + (classifyBar wins p).1 >
              (getWin wins (classifyBar wins p).2.2).end_
          · simp only [if_pos h3]
            refine ⟨trivial, ?_, ?_⟩
            · show Stacked (getWin wins sel).start [] (getWin wins sel).start
              exact le_refl _
            · intro q hq
              exact absurd hq (List.not_mem_nil q)
          · simp only [if_neg h3]
            have hr : ∃ sk br, (if p.mask &&& 4 ≠ 0 then
                setupBars rest true
                  (setWin wins (classifyBar wins p).2.2
                    { getWin wins (classifyBar wins p).2.2 with
                      start := ALIGN (getWin wins (classifyBar wins p).2.2).start
                        (classifyBar wins p).1 + (classifyBar wins p).1 }) (bar + 2)
              else
                setupBars rest false
                  (setWin wins (classifyBar wins p).2.2
                    { getWin wins (classifyBar wins p).2.2 with
                      start := ALIGN (getWin wins (classifyBar wins p).2.2).start
                        (classifyBar wins p).1 + (classifyBar wins p).1 }) (bar + 1)) =
                setupBars rest sk
                  (setWin wins (classifyBar wins p).2.2
                    { getWin wins (classifyBar wins p).2.2 with
                      start := ALIGN (getWin wins (classifyBar wins p).2.2).start
                        (classifyBar wins p).1 + (classifyBar wins p).1 }) br := by
              split
              · exact ⟨true, bar + 2, rfl⟩
              · exact ⟨false, bar + 1, rfl⟩
            obtain ⟨sk, br, hrr⟩ := hr
            simp only [hrr]
            have IH := ih sk (setWin wins (classifyBar wins p).2.2
              { getWin wins (classifyBar wins p).2.2 with
                start := ALIGN (getWin wins (classifyBar wins p).2.2).start
                  (classifyBar wins p).1 + (classifyBar wins p).1 }) br
            have hszpos : 0 < (classifyBar wins p).1 := Nat.pos_of_ne_zero h2
            have hfit : ALIGN (getWin wins (classifyBar wins p).2.2).start
                (classifyBar wins p).1 + (classifyBar wins p).1 ≤
                (getWin wins (classifyBar wins p).2.2).end_ := by omega
            have hage : (getWin wins (classifyBar wins p).2.2).start ≤
                ALIGN (getWin wins (classifyBar wins p).2.2).start (classifyBar wins p).1 :=
              ALIGN_ge _ _ hszpos
            rw [List.map_cons, List.filter_cons]
            rw [entry_window wins p _ _ _ (by split <;> simp)]
            dsimp only
            by_cases hsel : (classifyBar wins p).2.2 = sel
            · -- the allocated window is the one under scrutiny
              subst hsel
              rw [if_pos (by simp)]
              simp only [getWin_setWin_same] at IH
              obtain ⟨IHend, IHstack, IHprops⟩ := IH
              refine ⟨by rw [IHend], ?_, ?_⟩
              · refine ⟨hage, show ALIGN (getWin wins (classifyBar wins p).2.2).start
                    (classifyBar wins p).1 ≤
                    ALIGN (getWin wins (classifyBar wins p).2.2).start
                    (classifyBar wins p).1 + (classifyBar wins p).1 - 1 from by omega, ?_⟩
                have hshift : ALIGN (getWin wins (classifyBar wins p).2.2).start
                    (classifyBar wins p).1 + (classifyBar wins p).1 - 1 + 1 =
                    ALIGN (getWin wins (classifyBar wins p).2.2).start
                    (classifyBar wins p).1 + (classifyBar wins p).1 := by omega
                rw [hshift]
                exact IHstack
              · intro q hq
                rcases List.mem_cons.mp hq with rfl | hmem
                · refine ⟨show ALIGN (getWin wins (classifyBar wins p).2.2).start
                      (classifyBar wins p).1 + (classifyBar wins p).1 - 1 ≤
                      (getWin wins (classifyBar wins p).2.2).end_ from by omega, ?_, ?_⟩
                  · have hx : ALIGN (getWin wins (classifyBar wins p).2.2).start
                        (classifyBar wins p).1 + (classifyBar wins p).1 - 1 -
                        ALIGN (getWin wins (classifyBar wins p).2.2).start
                        (classifyBar wins p).1 + 1 = (classifyBar wins p).1 := by omega
                    rw [hx]
                    exact classifyBar_size_pow2 wins p h2
                  · have hx : ALIGN (getWin wins (classifyBar wins p).2.2).start
                        (classifyBar wins p).1 + (classifyBar wins p).1 - 1 -
                        ALIGN (getWin wins (classifyBar wins p).2.2).start
                        (classifyBar wins p).1 + 1 = (classifyBar wins p).1 := by omega
                    rw [hx]
                    exact ALIGN_mod _ _
                · have h := IHprops q hmem
                  exact ⟨by omega, h.2.1, h.2.2⟩
            · -- a different window: the allocation does not touch it
              rw [if_neg (by simp [hsel])]
              rw [getWin_setWin_ne _ _ _ _ (fun hx => hsel hx.symm)] at IH
              exact IH

theorem runScan_nil (wins : CtrlWins) : runScan wins [] = (wins, []) := rfl

theorem runScan_setup (wins : CtrlWins) (probes : List BarProbe) (rest : List ScanStep) :
    runScan wins (.setup probes :: rest) =
      ((runScan (pci_setup_device wins probes).wins rest).1,
       (pci_setup_device wins probes).resources.map (·.2) ++
         (runScan (pci_setup_device wins probes).wins rest).2) := rfl

theorem runScan_bridge (wins : CtrlWins) (rest : List ScanStep) :
    runScan wins (.bridge :: rest) = runScan (bridge_align_windows wins) rest := rfl

theorem bridge_align_ioWin (wins : CtrlWins) :
    (bridge_align_windows wins).ioWin =
      if pci_resource_size wins.ioWin ≠ 0 then
        { wins.ioWin with start := ALIGN wins.ioWin.start (1024 * 4) }
      else wins.ioWin := rfl

theorem bridge_align_memWin (wins : CtrlWins) :
    (bridge_align_windows wins).memWin =
      if pci_resource_size wins.memWin ≠ 0 then
        { wins.memWin with start := ALIGN wins.memWin.start (1024 * 1024) }
      else wins.memWin := rfl

theorem bridge_align_prefWin (wins : CtrlWins) :
    (bridge_align_windows wins).prefWin =
      if pci_resource_size wins.prefWin ≠ 0 then
        { wins.prefWin with start := ALIGN wins.prefWin.start (1024 * 1024) }
      else wins.prefWin := rfl

/-- The bridge alignments never move a window's end and only advance its
start. -/
theorem bridge_align_window (wins : CtrlWins) (sel : WinSel) :
    (getWin (bridge_align_windows wins) sel).end_ = (getWin wins sel).end_ ∧
    (getWin wins sel).start ≤ (getWin (bridge_align_windows wins) sel).start := by
  cases sel with
  | ioSpace =>
    show ((bridge_align_windows wins).ioWin.end_ = wins.ioWin.end_ ∧
      wins.ioWin.start ≤ (bridge_align_windows wins).ioWin.start)
    rw [bridge_align_ioWin]
    split
    · exact ⟨rfl, ALIGN_ge _ _ (by norm_num)⟩
    · exact ⟨rfl, le_refl _⟩
  | memSpace =>
    show ((bridge_align_windows wins).memWin.end_ = wins.memWin.end_ ∧
      wins.memWin.start ≤ (bridge_align_windows wins).memWin.start)
    rw [bridge_align_memWin]
    split
    · exact ⟨rfl, ALIGN_ge _ _ (by norm_num)⟩
    · exact ⟨rfl, le_refl _⟩
  | prefSpace =>
    show ((bridge_align_windows wins).prefWin.end_ = wins.prefWin.end_ ∧
      wins.prefWin.start ≤ (bridge_align_windows wins).prefWin.start)
    rw [bridge_align_prefWin]
    split
    · exact ⟨rfl, ALIGN_ge _ _ (by norm_num)⟩
    · exact ⟨rfl, le_refl _⟩

/-- Per-window behaviour of a whole scan event sequence. -/
theorem runScan_window (sel : WinSel) : ∀ (steps : List ScanStep) (wins : CtrlWins),
    (getWin (runScan wins steps).1 sel).end_ = (getWin wins sel).end_ ∧
    Stacked (getWin wins sel).start
      ((runScan wins steps).2.filter (isFromWindow sel))
      (getWin (runScan wins steps).1 sel).start ∧
    ∀ q ∈ (runScan wins steps).2.filter (isFromWindow sel),
      q.end_ ≤ (getWin wins sel).end_ ∧ (∃ k, q.end_ - q.start + 1 = 2^k) ∧
      q.start % (q.end_ - q.start + 1) = 0 := by
  intro steps
  induction steps with
  | nil =>
    intro wins
    rw [runScan_nil]
    refine ⟨rfl, ?_, ?_⟩
    · show Stacked (getWin wins sel).start [] (getWin wins sel).start
      exact le_refl _
    · intro q hq
      exact absurd hq (List.not_mem_nil q)
  | cons step rest ih =>
    intro wins
    cases step with
    | setup probes =>
      rw [runScan_setup]
      have hs := setupBars_window sel probes false wins 0
      have ht := ih (pci_setup_device wins probes).wins
      have hsetup : pci_setup_device wins probes = setupBars probes false wins 0 := rfl
      rw [← hsetup] at hs
      refine ⟨by rw [ht.1, hs.1], ?_, ?_⟩
      · rw [List.filter_append]
        exact Stacked_append _ _ _ _ _ hs.2.1 ht.2.1
      · intro q hq
        rw [List.filter_append] at hq
        rcases List.mem_append.mp hq with hmem | hmem
        · exact hs.2.2 q hmem
        · have h := ht.2.2 q hmem
          refine ⟨?_, h.2.1, h.2.2⟩
          rw [← hs.1]
          exact h.1
    | bridge =>
      rw [runScan_bridge]
      have hb := bridge_align_window wins sel
      have ih' := ih (bridge_align_windows wins)
      refine ⟨by rw [ih'.1, hb.1], ?_, ?_⟩
      · exact Stacked_mono_lo _ _ _ _ hb.2 ih'.2.1
      · intro q hq
        have h := ih'.2.2 q hq
        refine ⟨?_, h.2.1, h.2.2⟩
        rw [← hb.1]
        exact h.1

/-! ## Claim C5: window invariants after scanning -/

/-- Claim C5: after scanning any topology in assign-all-buses mode (any
sequence of device BAR setups and bridge window alignments over the
controller), for each of the controller's three windows the set of BAR
ranges assigned from that window is pairwise disjoint, every assigned
range lies within the controller's original window `[start, end]`, and
every populated resource spans a power-of-two number of addresses
(`end - start + 1 = 2^k`) with `start` aligned to that size. -/
theorem C5_window_invariants (wins : CtrlWins) (steps : List ScanStep) (sel : WinSel) :
    ((runScan wins steps).2.filter (isFromWindow sel)).Pairwise
      (fun a b => a.end_ < b.start ∨ b.end_ < a.start) ∧
    ∀ q ∈ (runScan wins steps).2.filter (isFromWindow sel),
      (getWin wins sel).start ≤ q.start ∧ q.start ≤ q.end_ ∧
      q.end_ ≤ (getWin wins sel).end_ ∧
      (∃ k, q.end_ - q.start + 1 = 2^k) ∧ q.start % (q.end_ - q.start + 1) = 0 := by
  have h := runScan_window sel steps wins
  refine ⟨?_, ?_⟩
  · exact (Stacked_pairwise _ _ _ h.2.1).imp fun hx => Or.inl hx
  · intro q hq
    have hb := Stacked_bounds _ _ _ h.2.1 q hq
    have hp := h.2.2 q hq
    exact ⟨hb.1, hb.2.1, hp.1, hp.2.1, hp.2.2⟩

/-- Claim C5 witness: the spec's single-device scenario — a 16-byte I/O
BAR and an 8 KiB memory BAR against `io = [0x1000, 0x2000]`,
`mem = [0xf0000000, 0xf0100000]` — evaluated concretely, with the
invariants instantiated at the assigned memory range. -/
theorem C5_window_invariants_witness :
    (runScan ⟨⟨0x1000, 0x2000, 0⟩, ⟨0xf0000000, 0xf0100000, 0⟩, ⟨0, 0, 0⟩⟩
        [.setup [⟨0, 0xfffffff1⟩, ⟨0, 0xffffe000⟩]]).2.filter (isFromWindow .memSpace) =
      [⟨0xf0000000, 0xf0001fff, 2⟩] ∧
    ((0xf0000000 : Nat) ≤ 0xf0000000 ∧ (0xf0000000 : Nat) ≤ 0xf0001fff ∧
      (0xf0001fff : Nat) ≤ 0xf0100000 ∧
      (∃ k, (0xf0001fff : Nat) - 0xf0000000 + 1 = 2^k) ∧
      (0xf0000000 : Nat) % (0xf0001fff - 0xf0000000 + 1) = 0) := by
  refine ⟨by decide, ?_⟩
  exact (C5_window_invariants
      ⟨⟨0x1000, 0x2000, 0⟩, ⟨0xf0000000, 0xf0100000, 0⟩, ⟨0, 0, 0⟩⟩
      [.setup [⟨0, 0xfffffff1⟩, ⟨0, 0xffffe000⟩]] .memSpace).2
    ⟨0xf0000000, 0xf0001fff, 2⟩ (by decide)

/-! ## Scanner lemmas (claim C6) -/

theorem scanFrom_zero (cfg : ScanCfg) (m devfn : Nat) : scanFrom cfg m devfn 0 = [] := rfl

theorem scanFrom_succ (cfg : ScanCfg) (m devfn fuel : Nat) :
    scanFrom cfg m devfn (fuel + 1) =
      (scanStep cfg m devfn).2 ++ scanFrom cfg (scanStep cfg m devfn).1 (devfn + 1) fuel := rfl

/-- At a function-0 `devfn` whose header-type read succeeds, the
`is_multi` gate is reloaded from the read value, whatever else the
iteration does. -/
theorem scanStep_m_fn0 (cfg : ScanCfg) (m devfn h : Nat) (h0 : devfn &&& 7 = 0)
    (hh : cfg.hdrRead devfn = some h) :
    (scanStep cfg m devfn).1 = h % 2^8 &&& 0x80 := by
  unfold scanStep
  rw [if_neg (fun hx => hx.1 h0)]
  simp only [hh, if_pos h0]
  cases hv : cfg.vendorRead devfn <;> simp only [hv] <;> (repeat' split) <;> rfl

/-- At a function `devfn` with nonzero function number the `is_multi`
gate is left unchanged by the iteration. -/
theorem scanStep_m_nonfn0 (cfg : ScanCfg) (m devfn : Nat) (h0 : devfn &&& 7 ≠ 0) :
    (scanStep cfg m devfn).1 = m := by
  unfold scanStep
  by_cases hm : m = 0
  · rw [if_pos ⟨h0, hm⟩]
  · rw [if_neg (fun hx => hm hx.2)]
    cases hh : cfg.hdrRead devfn <;> simp only [hh, if_neg h0] <;> (repeat' split) <;> rfl

/-- Whatever an iteration records is its own `devfn`, and it records
nothing when the multifunction gate skips it. -/
theorem scanStep_mem (cfg : ScanCfg) (m devfn d : Nat)
    (hd : d ∈ (scanStep cfg m devfn).2) : d = devfn ∧ ¬(devfn &&& 7 ≠ 0 ∧ m = 0) := by
  unfold scanStep at hd
  by_cases hskip : devfn &&& 7 ≠ 0 ∧ m = 0
  · rw [if_pos hskip] at hd
    exact absurd hd (List.not_mem_nil d)
  · rw [if_neg hskip] at hd
    refine ⟨?_, hskip⟩
    cases hh : cfg.hdrRead devfn with
    | none =>
      simp only [hh] at hd
      exact absurd hd (List.not_mem_nil d)
    | some hv =>
      simp only [hh] at hd
      repeat' split at hd
      all_goals dsimp only at hd
      all_goals
        first
        | exact absurd hd (List.not_mem_nil d)
        | exact List.mem_singleton.mp hd

/-- Loop invariant: whenever the gate `m` is nonzero at a non-zero
function number, function 0 of the current slot advertised the
multifunction bit; every recorded function with nonzero function number
therefore has an advertising function 0 — provided every slot's
function-0 header-type read succeeds. -/
theorem scanFrom_gated (cfg : ScanCfg)
    (H : ∀ s, s < 32 → (cfg.hdrRead (8 * s)).isSome = true) :
    ∀ (fuel devfn m : Nat), devfn + fuel ≤ 255 →
      (devfn &&& 7 ≠ 0 → m ≠ 0 → fn0Advertises cfg devfn) →
      ∀ d ∈ scanFrom cfg m devfn fuel, d &&& 7 ≠ 0 → fn0Advertises cfg d := by
  intro fuel
  induction fuel with
  | zero =>
    intro devfn m hb hinv d hd
    rw [scanFrom_zero] at hd
    exact absurd hd (List.not_mem_nil d)
  | succ f ih =>
    intro devfn m hb hinv d hd hdf
    rw [scanFrom_succ] at hd
    rcases List.mem_append.mp hd with hmem | hmem
    · obtain ⟨rfl, hns⟩ := scanStep_mem cfg m devfn d hmem
      have hm : m ≠ 0 := by
        by_contra h0
        exact hns ⟨hdf, h0⟩
      exact hinv hdf hm
    · refine ih (devfn + 1) (scanStep cfg m devfn).1 (by omega) ?_ d hmem hdf
      intro hdf1 hm1
      have hseven := land_seven devfn
      have hseven1 := land_seven (devfn + 1)
      rw [hseven1] at hdf1
      by_cases h0 : devfn &&& 7 = 0
      · rw [hseven] at h0
        have hlt : devfn / 8 < 32 := by omega
        have hsome := H (devfn / 8) hlt
        rw [show 8 * (devfn / 8) = devfn from by omega] at hsome
        obtain ⟨h, hh⟩ := Option.isSome_iff_exists.mp hsome
        have hm' := scanStep_m_fn0 cfg m devfn h (by rw [hseven]; exact h0) hh
        rw [hm'] at hm1
        refine ⟨h, ?_, hm1⟩
        rw [show (devfn + 1) / 8 * 8 = devfn from by omega]
        exact hh
      · rw [hseven] at h0
        have hm' := scanStep_m_nonfn0 cfg m devfn (by rw [hseven]; exact h0)
        rw [hm'] at hm1
        have hadv := hinv (by rw [hseven]; exact h0) hm1
        unfold fn0Advertises at hadv ⊢
        rw [show (devfn + 1) / 8 * 8 = devfn / 8 * 8 from by omega]
        exact hadv

theorem pci_scan_bus_def (cfg : ScanCfg) : pci_scan_bus cfg = scanFrom cfg 0 0 0xff := rfl

/-- Splitting the scan loop's fuel. -/
theorem scanFrom_add (cfg : ScanCfg) : ∀ (f1 f2 m devfn : Nat),
    scanFrom cfg m devfn (f1 + f2) =
      scanFrom cfg m devfn f1 ++
        scanFrom cfg (scanMState cfg m devfn f1) (devfn + f1) f2 := by
  intro f1
  induction f1 with
  | zero =>
    intro f2 m devfn
    simp [scanFrom_zero, scanMState]
  | succ g ih =>
    intro f2 m devfn
    rw [show g + 1 + f2 = (g + f2) + 1 from by omega, scanFrom_succ, ih,
      show scanFrom cfg m devfn (g + 1) =
        (scanStep cfg m devfn).2 ++ scanFrom cfg (scanStep cfg m devfn).1 (devfn + 1) g
        from scanFrom_succ cfg m devfn g,
      show scanMState cfg m devfn (g + 1) =
        scanMState cfg (scanStep cfg m devfn).1 (devfn + 1) g from rfl,
      show devfn + (g + 1) = devfn + 1 + g from by omega, List.append_assoc]

/-! ## Claim C6: multifunction gating -/

/-- Claim C6 counterexample: a backend on which the header-type read of
slot 1's function 0 (`devfn = 8`) fails while slot 0's function 0
advertised multifunction.  The scan loop executes `continue` on the read
failure *before* refreshing `is_multi` (pci.c lines 661-668), so the
stale `is_multi` from slot 0 lets function 1 of slot 1 (`devfn = 9`) be
probed and recorded even though its own function 0 never advertised the
multifunction bit — refuting the claim for arbitrary backends. -/
theorem C6_multifunction_counterexample :
    9 ∈ pci_scan_bus
      ⟨fun d => if d = 0 then some 0x80 else if d = 9 then some 0 else none,
       fun d => if d = 9 then some 0x12345678 else none,
       fun _ => 0⟩ ∧
    (9 : Nat) &&& 7 ≠ 0 ∧
    (fun d => if d = 0 then some (0x80 : Nat) else if d = 9 then some 0 else none) (9 / 8 * 8) =
      none ∧
    ¬ fn0Advertises
      ⟨fun d => if d = 0 then some 0x80 else if d = 9 then some 0 else none,
       fun d => if d = 9 then some 0x12345678 else none,
       fun _ => 0⟩ 9 := by
  refine ⟨?_, by decide, by decide, ?_⟩
  · rw [pci_scan_bus_def, show (0xff : Nat) = 10 + 245 from by norm_num, scanFrom_add]
    exact List.mem_append_left _ (by decide)
  · rintro ⟨h, hh, _⟩
    simp at hh

/-- Claim C6 as amended: provided the function-0 header-type read
succeeds for every slot, after the scan completes no function with
function number `f > 0` is recorded unless function 0 of its slot
advertised the multifunction bit (bit `0x80` of its 8-bit header type).
Without that proviso the claim fails (see the counterexample): a failed
function-0 header read leaves the gate holding the previous slot's
value. -/
theorem C6_multifunction_gating_amended (cfg : ScanCfg)
    (H : ∀ s, s < 32 → (cfg.hdrRead (8 * s)).isSome = true) :
    ∀ d ∈ pci_scan_bus cfg, d &&& 7 ≠ 0 → fn0Advertises cfg d := by
  intro d hd
  exact scanFrom_gated cfg H 0xff 0 0 (by norm_num)
    (fun hx _ => absurd (by decide : (0 : Nat) &&& 7 = 0) hx) d hd

/-- Claim C6 witness: a backend whose function-0 reads all succeed —
slot 0 advertises multifunction and its function 1 is recorded; the
amended theorem then yields the advertising witness for `devfn = 1`. -/
theorem C6_multifunction_gating_amended_witness :
    fn0Advertises
      ⟨fun d => some (if d = 0 then 0x80 else 0),
       fun d => if d = 1 then some 0x12345678 else none,
       fun _ => 0⟩ 1 :=
  C6_multifunction_gating_amended
    ⟨fun d => some (if d = 0 then 0x80 else 0),
     fun d => if d = 1 then some 0x12345678 else none,
     fun _ => 0⟩ (by decide) 1
    (by rw [pci_scan_bus_def, show (0xff : Nat) = 2 + 253 from by norm_num, scanFrom_add]
        exact List.mem_append_left _ (by decide))
    (by decide)

end PciCore